import Mathlib

set_option autoImplicit false
set_option maxHeartbeats 1000000

/-
  Verification development for the AQM-Eval driver core (NOAA-EPIC/AQM-Eval).

  The definitions below are a shallow embedding of the Python sources:
  pure functions become Lean functions, the filesystem becomes an explicit
  list of existing paths, fallible code returns `Except`/`Option`, machine
  floats are idealized as real numbers, and Python dicts become association
  lists in insertion order (duplicate-free keys are recorded separately as a
  well-formedness predicate where a proof needs them).
-/

namespace AqmEval

/-! ## Task, package and scorecard catalog (mm_eval/driver/config.py) -/

/-- Embedding of `TaskKey` (config.py): unique MM task keys, in declaration
order. -/
inductive TaskKey where
  | save_paired
  | timeseries
  | taylor
  | spatial_bias
  | spatial_overlay
  | boxplot
  | multi_boxplot
  | scorecard
  | csi
  | stats
  deriving DecidableEq

/-- Embedding of `tuple(TaskKey)`: the default task list of the chem, aqs_pm
and aqs_voc packages is every task key in declaration order (chem.py,
aqs_pm.py, aqs_voc.py). -/
def taskKeyAll : List TaskKey :=
  [.save_paired, .timeseries, .taylor, .spatial_bias, .spatial_overlay,
   .boxplot, .multi_boxplot, .scorecard, .csi, .stats]

/-- Embedding of `ScorecardConfig` (config.py): a named comparison between a
control and a sensitivity model. The `key` field is excluded from
serialization and re-injected from the mapping key on validation. -/
structure ScorecardConfig where
  key : String
  control : String
  sensitivity : String
  deriving DecidableEq

/-- Embedding of `AbstractEvalPackage.enable_scorecards` (package/core.py
lines 91-93): true iff at least one scorecard is configured. -/
def enableScorecards (scorecards : List (String × ScorecardConfig)) : Bool :=
  scorecards.length > 0

/-- Embedding of `AbstractEvalPackage.tasks` (package/core.py lines 84-89):
the effective task list is the default list when scorecards are enabled,
else the default list with the scorecard task filtered out. -/
def packageTasks (tasksDefault : List TaskKey)
    (scorecards : List (String × ScorecardConfig)) : List TaskKey :=
  if enableScorecards scorecards then tasksDefault
  else tasksDefault.filter (fun ii => ii != TaskKey.scorecard)

/-- Effective task list as the spec sentence for claim C1 words it: the
default ordered task list minus every task in `tasks_to_exclude`, minus the
scorecard task when fewer than two scorecard-eligible models exist. Written
from the spec only, to be compared with `packageTasks`. -/
def specEffectiveTasks (tasksDefault tasksToExclude : List TaskKey)
    (nScorecardEligible : Nat) : List TaskKey :=
  (tasksDefault.filter (fun t => !(tasksToExclude.contains t))).filter
    (fun t => !(t == TaskKey.scorecard && decide (nScorecardEligible < 2)))

/-- Embedding of `ScorecardMethod` (config.py lines 18-23): the four
statistical methods, in declaration order. -/
inductive ScorecardMethod where
  | rmse
  | ioa
  | nmb
  | nme
  deriving DecidableEq

/-- Iteration order of `for scorecard_method in ScorecardMethod`. -/
def scorecardMethodAll : List ScorecardMethod := [.rmse, .ioa, .nmb, .nme]

/-- Control-specification files produced by `_create_control_configs_`
(package/core.py), in tagged form: `plain t` stands for `control_<t>.yaml`
and `scorecardFile m k` for `control_scorecard_<m>_<k>.yaml`; the rendered
names are injective in the tags, so counting tags counts files. -/
inductive ControlFile where
  | plain (task : TaskKey)
  | scorecardFile (method : ScorecardMethod) (key : String)
  deriving DecidableEq

/-- Predicate selecting the scorecard control files from the generated set. -/
def ControlFile.isScorecard : ControlFile → Bool
  | .plain _ => false
  | .scorecardFile _ _ => true

/-- Embedding of the model lookup in `_create_control_configs_for_scorecards_`
(package/core.py lines 418-424): for each of `[sensitivity, control]`, the
first model whose label matches is collected. -/
def scorecardModels (labels : List String) (cfg : ScorecardConfig) :
    List String :=
  [cfg.sensitivity, cfg.control].filterMap
    (fun ii => labels.find? (fun jj => jj == ii))

/-- Embedding of the per-scorecard body of
`_create_control_configs_for_scorecards_` (package/core.py lines 417-438):
a failed model lookup raises before any of the four method files is written;
otherwise one file per statistical method is produced. -/
def fanoutScorecard (labels : List String) (cfg : ScorecardConfig) :
    Except String (List ControlFile) :=
  if (scorecardModels labels cfg).length ≠ 2 then
    Except.error ("could not find all models for scorecard " ++ cfg.key)
  else
    Except.ok (scorecardMethodAll.map (fun m => ControlFile.scorecardFile m cfg.key))

/-- Embedding of the scorecard loop of
`_create_control_configs_for_scorecards_`: all configured scorecards are
fanned out in order. -/
def fanoutAllScorecards (labels : List String) :
    List (String × ScorecardConfig) → Except String (List ControlFile)
  | [] => Except.ok []
  | (_, cfg) :: rest => do
    let files ← fanoutScorecard labels cfg
    let more ← fanoutAllScorecards labels rest
    Except.ok (files ++ more)

/-- Embedding of the per-task loop of `_create_control_configs_`
(package/core.py lines 298-334): the scorecard task fans out per scorecard
and method; every other task yields its single control file. -/
def createControlConfigs (labels : List String)
    (scorecards : List (String × ScorecardConfig)) :
    List TaskKey → Except String (List ControlFile)
  | [] => Except.ok []
  | t :: rest =>
    if t = TaskKey.scorecard then do
      let files ← fanoutAllScorecards labels scorecards
      let more ← createControlConfigs labels scorecards rest
      Except.ok (files ++ more)
    else do
      let more ← createControlConfigs labels scorecards rest
      Except.ok (ControlFile.plain t :: more)

/-! ## Date-range iteration (shared.py, `DateRange.iter_by_step`) -/

/-- Embedding of `DateRange.iter_by_step` (shared.py lines 68-74): datetimes
are modelled as integers (e.g. seconds since an epoch) and the step as an
integer; the loop yields `curr` and advances by `step` while `curr <= end`.
The positivity guard on `step` only rules out the case where the Python
loop would not terminate (the claims fix the default positive one-day
step). -/
def iterByStep (start stop step : Int) : List Int :=
  if _h : 0 < step ∧ start ≤ stop then
    start :: iterByStep (start + step) stop step
  else
    []
termination_by (stop + step - start).toNat
decreasing_by
  simp_wf
  omega

/-! ## Filesystem model, run modes, and package initialization
    (shared.py `get_or_create_path`, package/core.py `initialize` and
    `_run_dask_operations_`, logging_aqm_eval.py `LoggerWrapper`) -/

/-- Filesystem paths as segment lists; the filesystem itself is the list of
existing paths (directories and files alike). -/
abbrev FsPath := List String

/-- Embedding of `pathlib.Path.mkdir(parents=True, exist_ok=...)`: fails iff
the path already exists and `exist_ok` is false; otherwise the path and its
missing ancestors are created. -/
def mkdirParents (fs : List FsPath) (p : FsPath) (existOk : Bool) :
    Except String (List FsPath) :=
  if p ∈ fs then
    if existOk then Except.ok fs else Except.error "FileExistsError"
  else
    Except.ok ((p.inits.filter (fun q => !q.isEmpty)) ++ fs)

/-- Embedding of `get_or_create_path` (shared.py lines 34-41): `mkdir` is
attempted only when the path does not already exist, so an existing path is
returned untouched whatever `exist_ok` says. -/
def getOrCreatePath (fs : List FsPath) (p : FsPath) (existOk : Bool) :
    Except String (List FsPath) :=
  if p ∈ fs then Except.ok fs
  else mkdirParents fs p existOk

/-- Embedding of `RunMode` (config.py lines 61-64). -/
inductive RunMode where
  | strict
  | resume
  deriving DecidableEq

/-- Embedding of the directory phase of `AbstractEvalPackage.initialize`
(package/core.py lines 204-214): create the output and run roots (exist_ok
true by default), then the package data directory `run_dir/<key>/data` and
the package output directory `output_dir/<key>` with
`exist_ok = (run_mode == resume)`. The control-file rendering that follows
only writes files and is not part of this embedding. -/
def initializeDirs (mode : RunMode) (outputDir runDir : FsPath) (key : String)
    (fs : List FsPath) : Except String (List FsPath) := do
  let fs1 ← getOrCreatePath fs outputDir true
  let fs2 ← getOrCreatePath fs1 runDir true
  let existOk := match mode with
    | RunMode.strict => false
    | RunMode.resume => true
  let fs3 ← getOrCreatePath fs2 (runDir ++ [key, "data"]) existOk
  let fs4 ← getOrCreatePath fs3 (outputDir ++ [key]) existOk
  Except.ok fs4

/-- Embedding of the control flow of `LoggerWrapper.__call__`
(logging_aqm_eval.py lines 40-66): with `exc_info` provided and
`exit_on_error` true the call raises the given exception. (At the call sites
in `_run_dask_operations_` and shared.py the required `msg` argument is
omitted, so CPython raises a `TypeError` before even entering the wrapper;
either way an exception propagates, which is what this embedding records.
`LOGGER` is initialized at import time with `exit_on_error=True`.) -/
def loggerCall (exitOnError : Bool) (excInfo : Option String) :
    Except String Unit :=
  match excInfo with
  | some e => if exitOnError then Except.error e else Except.ok ()
  | none => Except.ok ()

/-- Embedding of `AbstractDaskEvalPackage._run_dask_operations_`
(package/core.py lines 527-545) over the forecast-file specs' output paths:
under resume an already-existing output is skipped; otherwise an existing
output raises through the logger; otherwise the dask operation runs and
writes the output file. Returns the final filesystem together with the list
of output paths actually written. -/
def runDaskOperations (mode : RunMode) (outPaths : List FsPath)
    (fs : List FsPath) : Except String (List FsPath × List FsPath) :=
  match outPaths with
  | [] => Except.ok (fs, [])
  | out :: rest =>
    if mode = RunMode.resume ∧ out ∈ fs then
      runDaskOperations mode rest fs
    else
      match loggerCall true (if out ∈ fs then some "FileExistsError" else none) with
      | Except.error e => Except.error e
      | Except.ok _ =>
        match runDaskOperations mode rest (out :: fs) with
        | Except.ok (fsEnd, writes) => Except.ok (fsEnd, out :: writes)
        | Except.error e => Except.error e

/-! ## YAML values and the deep defaults merge (shared.py `update_left`) -/

/-- YAML/JSON-like values: the data domain of the configuration documents and
of the deep defaults merge. Numbers are modelled as rationals, mappings as
association lists in insertion order. -/
inductive Yaml where
  | s (v : String)
  | num (v : ℚ)
  | b (v : Bool)
  | null
  | arr (vs : List Yaml)
  | map (entries : List (String × Yaml))

/-- Python `dict.get`: the binding of a key, if present. -/
def dGet {α : Type} : List (String × α) → String → Option α
  | [], _ => none
  | (k, v) :: rest, key => if k = key then some v else dGet rest key

/-- Python `d[key] = value`: replace an existing binding in place, else
append at the end. -/
def dSet {α : Type} : List (String × α) → String → α → List (String × α)
  | [], key, val => [(key, val)]
  | (k, v) :: rest, key, val =>
    if k = key then (key, val) :: rest else (k, v) :: dSet rest key val

/-- Keys of a mapping, in insertion order. -/
def dKeys {α : Type} (m : List (String × α)) : List String := m.map Prod.fst

/-- Embedding of `update_left` (shared.py lines 81-86) as a pure function:
the Python routine mutates `data_left` in place, here the updated mapping is
returned. The `none` result is the case where Python raises — iterating
`value.items()` on a non-mapping right-hand value while `data_left[key]` is
a mapping — so the merge is undefined there. -/
def updateLeft : List (String × Yaml) → List (String × Yaml) →
    Option (List (String × Yaml))
  | l, [] => some l
  | l, (key, value) :: rest =>
    match dGet l key with
    | some (Yaml.map lm) =>
      match value with
      | Yaml.map rm =>
        match updateLeft lm rm with
        | some merged => updateLeft (dSet l key (Yaml.map merged)) rest
        | none => none
      | _ => none
    | _ => updateLeft (dSet l key value) rest
termination_by _ r => sizeOf r
decreasing_by
  all_goals simp_wf
  all_goals omega

/-- Well-formedness of a mapping as produced by Python dicts: keys are
duplicate-free at every nesting level. -/
inductive MapWF : List (String × Yaml) → Prop where
  | mk (m : List (String × Yaml)) :
      (dKeys m).Nodup →
      (∀ kv ∈ m, ∀ vm, kv.2 = Yaml.map vm → MapWF vm) →
      MapWF m

/-! ## Model configuration and whole-configuration validation (config.py) -/

/-- Embedding of `PlotKwargs` (config.py lines 134-138). -/
structure PlotKwargs where
  color : String
  marker : String
  linestyle : String
  markersize : Int
  deriving DecidableEq

/-- Embedding of `AQMModelConfig` (config.py lines 147-168). Opaque
pass-through fields (`kwargs`, `variables`, `projection`) are YAML values,
paths are their string form, and the float `radius_of_influence` is a
rational. The `key` field is excluded from serialization and re-injected
from the mapping key. -/
structure AQMModelConfig where
  key : String
  expt_dir : String
  title : String
  plot_kwargs : PlotKwargs
  is_host : Bool
  type : String
  kwargs : Yaml
  radius_of_influence : ℚ
  variablesF : Yaml
  projection : Yaml

/-- Embedding of the model-stem uniqueness double loop in
`AQMConfig._validate_models_after_` (config.py lines 241-246): some ordered
pair of distinct keys where `k[0:len(target)] == target`, i.e. `target` is a
prefix of `k`. -/
def stemClash (keys : List String) : Bool :=
  keys.any (fun target =>
    keys.any (fun k => !(target == k) && target.toList.isPrefixOf k.toList))

/-- Embedding of `AQMConfig._validate_models_after_` (config.py lines
238-268). Python's `len(set(...))` is modelled with `List.dedup.length`; the
checks run in source order and the first failure is reported. -/
def validateModelsAfter (noForecast : Bool)
    (models : List (String × AQMModelConfig)) : Except String Unit :=
  if stemClash (dKeys models) then
    Except.error "Model stems must be unique for wildcard selections."
  else if models.any (fun p => p.2.key != p.1) then
    Except.error "Model key does not match value.key."
  else if ((models.filter (fun p => p.2.is_host)).map Prod.fst).dedup.length ≠ 1 then
    Except.error "Only one model can be host."
  else if (models.map (fun p => p.2.title)).dedup.length ≠ models.length then
    Except.error "Model titles must be unique."
  else
    let colorsToCheck :=
      if noForecast then
        (models.filter (fun p => !p.2.is_host)).map (fun p => p.2.plot_kwargs.color)
      else
        models.map (fun p => p.2.plot_kwargs.color)
    let nToCheck := if noForecast then models.length - 1 else models.length
    if colorsToCheck.dedup.length ≠ nToCheck then
      Except.error "models[].plot_kwargs.color must be unique for each model."
    else
      Except.ok ()

/-! ## ISH meteorological derived fields (package/ish.py) -/

noncomputable section

open Real

/-- Four-quadrant arctangent as computed by `np.arctan2(y, x)`: the argument
of the complex number `x + y*i`, which lies in `(-π, π]` and is `0` at the
origin. The ISH formulas below are the float expressions of the source read
as exact real arithmetic. -/
def atan2 (y x : ℝ) : ℝ := Complex.arg ((x : ℂ) + (y : ℂ) * Complex.I)

/-- Embedding of the 10-m wind-direction computation of
`ISH_PreprocessDaskOperation._compute_derived_fields_` (ish.py line 44):
`270 - arctan2(v, u) * 180 / 3.1415`. -/
def wd10mRaw (u v : ℝ) : ℝ := 270 - atan2 v u * 180 / 3.1415

/-- The wrap on line 45 of ish.py: `xr.where(wd10m > 360, wd10m - 360,
wd10m)` — 360 is subtracted exactly where the raw value exceeds 360. -/
def wd10m (u v : ℝ) : ℝ :=
  if 360 < wd10mRaw u v then wd10mRaw u v - 360 else wd10mRaw u v

/-- Ascending insertion of one value into a sorted list. -/
def insertSorted (x : ℝ) : List ℝ → List ℝ
  | [] => [x]
  | y :: ys => if x ≤ y then x :: y :: ys else y :: insertSorted x ys

/-- Ascending sort of a field's values, standing in for numpy's sort inside
`quantile`. -/
def sortReals : List ℝ → List ℝ
  | [] => []
  | x :: xs => insertSorted x (sortReals xs)

/-- Minimum of a field (`DataArray.min()` over all elements); `0` on the
empty field, which does not occur for actual forecast data. -/
def fieldMin : List ℝ → ℝ
  | [] => 0
  | [x] => x
  | x :: xs => min x (fieldMin xs)

/-- The 0.9 quantile with linear interpolation (the numpy/xarray default):
for `n` sorted values and `h = 0.9 * (n - 1)`, the result is
`s[⌊h⌋] + (h - ⌊h⌋) * (s[⌊h⌋ + 1] - s[⌊h⌋])`; the floor and the fractional
part of `h` are computed exactly on naturals. -/
def quantile90 (xs : List ℝ) : ℝ :=
  let s := sortReals xs
  let n := s.length
  let lo := 9 * (n - 1) / 10
  let frac : ℝ := ((9 * (n - 1)) % 10 : ℕ) / 10
  let slo := s.getD lo 0
  slo + frac * (s.getD (lo + 1) slo - slo)

/-- Saturation vapor pressure (Pa) from a Celsius temperature, ish.py
line 58. -/
def eSat (tC : ℝ) : ℝ := 6.1094 * 100 * Real.exp (17.625 * tC / (tC + 243.04))

/-- Pointwise 2-m relative humidity from specific humidity (kg/kg) and 2-m
temperature (K): ish.py lines 50-60, including the Celsius conversion
`tmp2m -= 273.15`, `pres = 100000` Pa and `w_s = 0.622 * e_s / pres`. -/
def rhPoint (q tK : ℝ) : ℝ := 100 * q / (0.622 * eSat (tK - 273.15) / 100000)

/-- The whole 2-m relative-humidity field. -/
def rhField (spfh2m tmp2m : List ℝ) : List ℝ := List.zipWith rhPoint spfh2m tmp2m

/-- Derived fields produced by the ISH meteorological computation; the final
`astype(np.float32)` narrowing is the identity in the real-number model. -/
structure IshDerived where
  vapor : List ℝ
  dew_temp : List ℝ
  ws10m : List ℝ
  wd10mField : List ℝ
  rh2m : List ℝ

/-- Embedding of `ISH_PreprocessDaskOperation._compute_derived_fields_`
(ish.py lines 19-67): the derived variables are pure functions of the input
fields, and the relative-humidity sanity check
`rh.min() > 0 and rh.quantile(0.9) < 100` raises a `ValueError` when
violated, before `rh2m` is stored — nothing is clamped or merely warned. -/
def ishComputeDerivedFields (spfh2m tmp2m pressfc ugrd10m vgrd10m : List ℝ) :
    Except String IshDerived :=
  let vapor := List.zipWith
    (fun q p => (q / (1 - q)) * p / (0.622 + q / (1 - q))) spfh2m pressfc
  let dew := vapor.map (fun va =>
    (243.5 * Real.log ((va / 100) / 6.112)) /
      (17.269 - Real.log ((va / 100) / 6.112)))
  let ws := List.zipWith (fun u v => Real.sqrt (u * u + v * v)) ugrd10m vgrd10m
  let wd := List.zipWith wd10m ugrd10m vgrd10m
  let rh := rhField spfh2m tmp2m
  if 0 < fieldMin rh ∧ quantile90 rh < 100 then
    Except.ok
      { vapor := vapor, dew_temp := dew, ws10m := ws, wd10mField := wd, rh2m := rh }
  else
    Except.error "rh quantile check failed"

end

/-! ## Configuration document serialization
    (config.py `Config.to_yaml` / `Config.from_yaml` and the pydantic
    validators; `AeBaseModel` itself lives in `aqm_eval/base.py`, which is
    not among the sources — see `Config.fromYaml`) -/

/-- Embedding of `PackageKey` (config.py lines 51-58). -/
inductive PackageKeyT where
  | chem
  | ish
  | aqs_pm
  | aqs_voc
  deriving DecidableEq

/-- String value of a package key. -/
def PackageKeyT.value : PackageKeyT → String
  | .chem => "chem"
  | .ish => "ish"
  | .aqs_pm => "aqs_pm"
  | .aqs_voc => "aqs_voc"

/-- Validation of a package key from its string value. -/
def parsePackageKey (s : String) : Except String PackageKeyT :=
  if s = "chem" then Except.ok .chem
  else if s = "ish" then Except.ok .ish
  else if s = "aqs_pm" then Except.ok .aqs_pm
  else if s = "aqs_voc" then Except.ok .aqs_voc
  else Except.error ("unknown package key " ++ s)

/-- Embedding of `PlatformKey` (config.py lines 67-74); `localKey` models the
member named `LOCAL`. -/
inductive PlatformKeyT where
  | ursa
  | gaeac6
  | derecho
  | orion
  | hercules
  | localKey
  deriving DecidableEq

/-- String value of a platform key. -/
def PlatformKeyT.value : PlatformKeyT → String
  | .ursa => "ursa"
  | .gaeac6 => "gaeac6"
  | .derecho => "derecho"
  | .orion => "orion"
  | .hercules => "hercules"
  | .localKey => "local"

/-- Validation of a platform key from its string value. -/
def parsePlatformKey (s : String) : Except String PlatformKeyT :=
  if s = "ursa" then Except.ok .ursa
  else if s = "gaeac6" then Except.ok .gaeac6
  else if s = "derecho" then Except.ok .derecho
  else if s = "orion" then Except.ok .orion
  else if s = "hercules" then Except.ok .hercules
  else if s = "local" then Except.ok .localKey
  else Except.error ("unknown platform key " ++ s)

/-- String value of a task key, as in the Python `StrEnum`. -/
def TaskKey.value : TaskKey → String
  | .save_paired => "save_paired"
  | .timeseries => "timeseries"
  | .taylor => "taylor"
  | .spatial_bias => "spatial_bias"
  | .spatial_overlay => "spatial_overlay"
  | .boxplot => "boxplot"
  | .multi_boxplot => "multi_boxplot"
  | .scorecard => "scorecard"
  | .csi => "csi"
  | .stats => "stats"

/-- Validation of a task key from its string value. -/
def parseTaskKey (s : String) : Except String TaskKey :=
  if s = "save_paired" then Except.ok .save_paired
  else if s = "timeseries" then Except.ok .timeseries
  else if s = "taylor" then Except.ok .taylor
  else if s = "spatial_bias" then Except.ok .spatial_bias
  else if s = "spatial_overlay" then Except.ok .spatial_overlay
  else if s = "boxplot" then Except.ok .boxplot
  else if s = "multi_boxplot" then Except.ok .multi_boxplot
  else if s = "scorecard" then Except.ok .scorecard
  else if s = "csi" then Except.ok .csi
  else if s = "stats" then Except.ok .stats
  else Except.error ("unknown task key " ++ s)

/-- String value of a run mode. -/
def RunMode.value : RunMode → String
  | .strict => "strict"
  | .resume => "resume"

/-- Validation of a run mode from its string value. -/
def parseRunMode (s : String) : Except String RunMode :=
  if s = "strict" then Except.ok .strict
  else if s = "resume" then Except.ok .resume
  else Except.error ("unknown run mode " ++ s)

/-- Mapping shape test, used where a pydantic field is typed `dict`. -/
def Yaml.isMapB : Yaml → Bool
  | .map _ => true
  | _ => false

/-- Expect a YAML mapping. -/
def asMap : Yaml → Except String (List (String × Yaml))
  | .map m => Except.ok m
  | _ => Except.error "expected a mapping"

/-- Expect a YAML string. -/
def getStr : Yaml → Except String String
  | .s v => Except.ok v
  | _ => Except.error "expected a string"

/-- Expect a YAML boolean. -/
def getBool : Yaml → Except String Bool
  | .b v => Except.ok v
  | _ => Except.error "expected a boolean"

/-- Expect a YAML number that is an integer (pydantic `int`). -/
def getInt : Yaml → Except String Int
  | .num v => if v.den = 1 then Except.ok v.num else Except.error "expected an integer"
  | _ => Except.error "expected an integer"

/-- Expect a YAML number (pydantic `float`). -/
def getNum : Yaml → Except String ℚ
  | .num v => Except.ok v
  | _ => Except.error "expected a number"

/-- Required pydantic field: absence is a validation error. -/
def reqField (m : List (String × Yaml)) (k : String) : Except String Yaml :=
  match dGet m k with
  | some v => Except.ok v
  | none => Except.error ("missing field " ++ k)

/-- Serialization of a keyed mapping field: every value is dumped and every
key rendered to its string form, in insertion order. -/
def dumpEntries {κ β : Type} (kv : κ → String) (g : β → Yaml)
    (l : List (κ × β)) : List (String × Yaml) :=
  l.map (fun p => (kv p.1, g p.2))

/-- Validation of a keyed mapping field: keys are parsed with `pk` and each
value with `f` (which receives the parsed key, mirroring the key injection
performed by `AQMConfig._validate_model_before_`). -/
def parseKeyedEntries {κ β : Type} (pk : String → Except String κ)
    (f : κ → Yaml → Except String β) :
    List (String × Yaml) → Except String (List (κ × β))
  | [] => Except.ok []
  | (k, v) :: rest => do
    let kk ← pk k
    let b ← f kk v
    let more ← parseKeyedEntries pk f rest
    Except.ok ((kk, b) :: more)

/-- Embedding of `BatchArgs` (config.py lines 93-96). -/
structure BatchArgs where
  nodes : Int
  tasks_per_node : Int
  walltime : String
  deriving DecidableEq

/-- Serialization of `BatchArgs` by `model_dump(mode="json")`. -/
def BatchArgs.dump (b : BatchArgs) : Yaml :=
  Yaml.map [("nodes", Yaml.num b.nodes), ("tasks_per_node", Yaml.num b.tasks_per_node),
    ("walltime", Yaml.s b.walltime)]

/-- Validation of `BatchArgs`: defaults `nodes=1`, `tasks_per_node=1`,
`walltime="01:00:00"`, with the `ge=1` constraints of the two counts. -/
def parseBatchArgs (y : Yaml) : Except String BatchArgs := do
  let m ← asMap y
  let nodes ← match dGet m "nodes" with
    | none => pure (1 : Int)
    | some v => getInt v
  let tpn ← match dGet m "tasks_per_node" with
    | none => pure (1 : Int)
    | some v => getInt v
  let w ← match dGet m "walltime" with
    | none => pure "01:00:00"
    | some v => getStr v
  if nodes < 1 ∨ tpn < 1 then Except.error "batchargs counts must be >= 1"
  else Except.ok { nodes := nodes, tasks_per_node := tpn, walltime := w }

/-- Embedding of `Execution` (config.py lines 99-100). -/
structure Execution where
  batchargs : BatchArgs
  deriving DecidableEq

/-- Serialization of `Execution`. -/
def Execution.dump (e : Execution) : Yaml :=
  Yaml.map [("batchargs", e.batchargs.dump)]

/-- Validation of `Execution`: `batchargs` defaults to `BatchArgs()`. -/
def parseExecution (y : Yaml) : Except String Execution := do
  let m ← asMap y
  let b ← match dGet m "batchargs" with
    | none => pure { nodes := 1, tasks_per_node := 1, walltime := "01:00:00" : BatchArgs }
    | some v => parseBatchArgs v
  Except.ok { batchargs := b }

/-- Embedding of `PackageExecution` (config.py lines 103-105); both fields
are required. -/
structure PackageExecution where
  prep : Execution
  tasks : List (TaskKey × Execution)
  deriving DecidableEq

/-- Serialization of `PackageExecution`. -/
def PackageExecution.dump (pe : PackageExecution) : Yaml :=
  Yaml.map [("prep", pe.prep.dump),
    ("tasks", Yaml.map (dumpEntries TaskKey.value Execution.dump pe.tasks))]

/-- Validation of `PackageExecution`. -/
def parsePackageExecution (y : Yaml) : Except String PackageExecution := do
  let m ← asMap y
  let prep ← reqField m "prep" >>= parseExecution
  let tasksY ← reqField m "tasks" >>= asMap
  let tasks ← parseKeyedEntries parseTaskKey (fun _ v => parseExecution v) tasksY
  Except.ok { prep := prep, tasks := tasks }

/-- Embedding of `PackageConfig` (config.py lines 108-131). The `key` field
is excluded from serialization and re-injected from the mapping key. -/
structure PackageConfig where
  key : PackageKeyT
  observation_template : Option String
  observation_variables : Yaml
  mapping : List (String × String)
  active : Bool
  tasks_to_exclude : List TaskKey
  execution : PackageExecution
  task_overlay : List (TaskKey × Yaml)
  task_mm_config : List (TaskKey × Yaml)

/-- Serialization of `PackageConfig` (the excluded `key` is not dumped). -/
def PackageConfig.dump (p : PackageConfig) : Yaml :=
  Yaml.map
    [("observation_template",
        match p.observation_template with
        | none => Yaml.null
        | some s => Yaml.s s),
      ("observation_variables", p.observation_variables),
      ("mapping", Yaml.map (dumpEntries (fun s => s) (fun s => Yaml.s s) p.mapping)),
      ("active", Yaml.b p.active),
      ("tasks_to_exclude", Yaml.arr (p.tasks_to_exclude.map (fun t => Yaml.s t.value))),
      ("execution", p.execution.dump),
      ("task_overlay", Yaml.map (dumpEntries TaskKey.value id p.task_overlay)),
      ("task_mm_config", Yaml.map (dumpEntries TaskKey.value id p.task_mm_config))]

/-- Validation of a list of task keys (field `tasks_to_exclude`). -/
def parseTaskKeyList : List Yaml → Except String (List TaskKey)
  | [] => Except.ok []
  | v :: rest => do
    let s ← getStr v
    let t ← parseTaskKey s
    let more ← parseTaskKeyList rest
    Except.ok (t :: more)

/-- Validation of `PackageConfig`, including its after-validator
`_validate_model_after_` (an active package must name an observation
template). The `execution` field's `default_factory` validates `{}` against
required `prep`/`tasks` fields and therefore cannot supply a default, so an
absent `execution` is an error. -/
def parsePackageConfig (pk : PackageKeyT) (y : Yaml) :
    Except String PackageConfig := do
  let m ← asMap y
  let obsT ← match dGet m "observation_template" with
    | none => pure (Option.none (α := String))
    | some Yaml.null => pure (Option.none (α := String))
    | some v => do
        let s ← getStr v
        pure (some s)
  let obsVM ← reqField m "observation_variables" >>= asMap
  let mappingY ← reqField m "mapping" >>= asMap
  let mapping ← parseKeyedEntries Except.ok (fun _ v => getStr v) mappingY
  let active ← match dGet m "active" with
    | none => pure true
    | some v => getBool v
  let tte ← match dGet m "tasks_to_exclude" with
    | none => pure ([] : List TaskKey)
    | some (Yaml.arr vs) => parseTaskKeyList vs
    | some _ => Except.error "expected a list"
  let exec ← reqField m "execution" >>= parsePackageExecution
  let overlayY ← reqField m "task_overlay" >>= asMap
  let overlay ← parseKeyedEntries parseTaskKey
    (fun _ v => (asMap v).map Yaml.map) overlayY
  let tmcY ← reqField m "task_mm_config" >>= asMap
  let tmc ← parseKeyedEntries parseTaskKey
    (fun _ v => (asMap v).map Yaml.map) tmcY
  if active && obsT.isNone then
    Except.error "observation_template must be set if active is True."
  else
    Except.ok
      { key := pk, observation_template := obsT,
        observation_variables := Yaml.map obsVM, mapping := mapping,
        active := active, tasks_to_exclude := tte, execution := exec,
        task_overlay := overlay, task_mm_config := tmc }

/-- Serialization of `ScorecardConfig` (the excluded `key` is not dumped). -/
def ScorecardConfig.dump (sc : ScorecardConfig) : Yaml :=
  Yaml.map [("control", Yaml.s sc.control), ("sensitivity", Yaml.s sc.sensitivity)]

/-- Validation of `ScorecardConfig`; the key is injected from the map key. -/
def parseScorecardConfig (k : String) (y : Yaml) : Except String ScorecardConfig := do
  let m ← asMap y
  let c ← reqField m "control" >>= getStr
  let sv ← reqField m "sensitivity" >>= getStr
  Except.ok { key := k, control := c, sensitivity := sv }

/-- Embedding of `TaskDefaults` (config.py lines 141-144). -/
structure TaskDefaults where
  execution : Execution
  save_paired : Yaml
  timeseries : Yaml

/-- Serialization of `TaskDefaults`. -/
def TaskDefaults.dump (td : TaskDefaults) : Yaml :=
  Yaml.map [("execution", td.execution.dump), ("save_paired", td.save_paired),
    ("timeseries", td.timeseries)]

/-- Validation of `TaskDefaults`: the two task dicts default to `{}`. -/
def parseTaskDefaults (y : Yaml) : Except String TaskDefaults := do
  let m ← asMap y
  let e ← reqField m "execution" >>= parseExecution
  let sp ← match dGet m "save_paired" with
    | none => pure (Yaml.map [])
    | some v => (asMap v).map Yaml.map
  let ts ← match dGet m "timeseries" with
    | none => pure (Yaml.map [])
    | some v => (asMap v).map Yaml.map
  Except.ok { execution := e, save_paired := sp, timeseries := ts }

/-- Serialization of `PlotKwargs`. -/
def PlotKwargs.dump (p : PlotKwargs) : Yaml :=
  Yaml.map [("color", Yaml.s p.color), ("marker", Yaml.s p.marker),
    ("linestyle", Yaml.s p.linestyle), ("markersize", Yaml.num p.markersize)]

/-- Validation of `PlotKwargs` with its field defaults. -/
def parsePlotKwargs (y : Yaml) : Except String PlotKwargs := do
  let m ← asMap y
  let color ← match dGet m "color" with
    | none => pure "g"
    | some v => getStr v
  let marker ← match dGet m "marker" with
    | none => pure "^"
    | some v => getStr v
  let ls ← match dGet m "linestyle" with
    | none => pure "-"
    | some v => getStr v
  let ms ← match dGet m "markersize" with
    | none => pure (4 : Int)
    | some v => getInt v
  Except.ok { color := color, marker := marker, linestyle := ls, markersize := ms }

/-- Serialization of `AQMModelConfig` (the excluded `key` is not dumped;
`variablesF` models the source field `variables`, a Lean keyword). -/
def AQMModelConfig.dump (mc : AQMModelConfig) : Yaml :=
  Yaml.map [("expt_dir", Yaml.s mc.expt_dir), ("title", Yaml.s mc.title),
    ("plot_kwargs", mc.plot_kwargs.dump), ("is_host", Yaml.b mc.is_host),
    ("type", Yaml.s mc.type), ("kwargs", mc.kwargs),
    ("radius_of_influence", Yaml.num mc.radius_of_influence),
    ("variables", mc.variablesF), ("projection", mc.projection)]

/-- Validation of `AQMModelConfig`, with the `_validate_model_` before-hook
(a missing or null title defaults to the model key) and the field defaults
of config.py lines 152-161. -/
def parseModelConfig (k : String) (y : Yaml) : Except String AQMModelConfig := do
  let m ← asMap y
  let title ← match dGet m "title" with
    | none => pure k
    | some Yaml.null => pure k
    | some v => getStr v
  let exptDir ← reqField m "expt_dir" >>= getStr
  let pkw ← reqField m "plot_kwargs" >>= parsePlotKwargs
  let isHost ← match dGet m "is_host" with
    | none => pure false
    | some v => getBool v
  let ty ← match dGet m "type" with
    | none => pure "rrfs"
    | some v => getStr v
  let kw ← match dGet m "kwargs" with
    | none => pure (Yaml.map [("surf_only", Yaml.b true), ("mech", Yaml.s "cb6r3_ae6_aq")])
    | some v => (asMap v).map Yaml.map
  let radius ← match dGet m "radius_of_influence" with
    | none => pure (20000 : ℚ)
    | some v => getNum v
  let vars := (dGet m "variables").getD Yaml.null
  let proj := (dGet m "projection").getD Yaml.null
  Except.ok
    { key := k, expt_dir := exptDir, title := title, plot_kwargs := pkw,
      is_host := isHost, type := ty, kwargs := kw,
      radius_of_influence := radius, variablesF := vars, projection := proj }

/-- Embedding of `AQMConfig` (config.py lines 171-268) as a data value. -/
structure AQMConfig where
  active : Bool
  no_forecast : Bool
  models : List (String × AQMModelConfig)
  packages : List (PackageKeyT × PackageConfig)
  task_defaults : TaskDefaults
  scorecards : List (String × ScorecardConfig)
  run_mode : RunMode

/-- Serialization of `AQMConfig`. -/
def AQMConfig.dump (a : AQMConfig) : Yaml :=
  Yaml.map [("active", Yaml.b a.active), ("no_forecast", Yaml.b a.no_forecast),
    ("models", Yaml.map (dumpEntries (fun s => s) AQMModelConfig.dump a.models)),
    ("packages", Yaml.map (dumpEntries PackageKeyT.value PackageConfig.dump a.packages)),
    ("task_defaults", a.task_defaults.dump),
    ("scorecards", Yaml.map (dumpEntries (fun s => s) ScorecardConfig.dump a.scorecards)),
    ("run_mode", Yaml.s a.run_mode.value)]

/-- Embedding of the scorecard loop of `AQMConfig._validate_model_after_`
(config.py lines 228-232): every scorecard must reference existing models,
and under `no_forecast` the host model (whose absence is itself an error
there) may appear in no scorecard. -/
def scorecardRefsCheck (noForecast : Bool)
    (models : List (String × AQMModelConfig)) :
    List (String × ScorecardConfig) → Except String Unit
  | [] => Except.ok ()
  | (k, v) :: rest =>
    if !((dKeys models).contains v.control) || !((dKeys models).contains v.sensitivity) then
      Except.error ("Scorecard key=" ++ k ++ " references non-existent model.")
    else if noForecast then
      match models.find? (fun p => p.2.is_host) with
      | none => Except.error "No host model found."
      | some h =>
        if h.1 = v.control ∨ h.1 = v.sensitivity then
          Except.error ("Host model cannot be used for scorecard " ++ k ++ " since no_forecast is True.")
        else
          scorecardRefsCheck noForecast models rest
    else
      scorecardRefsCheck noForecast models rest

/-- Validation of `AQMConfig`: the `_validate_model_before_` hook (the three
section mappings must be present — a missing one is a `KeyError` — keys are
injected into entities, and at least one model must exist), the field
validations (with `min_length=1` on `packages`), then the
`_validate_model_after_` hook (scorecard references and
`validateModelsAfter`). -/
def parseAQMConfig (y : Yaml) : Except String AQMConfig := do
  let m ← asMap y
  let modelsRaw ← reqField m "models" >>= asMap
  let packagesRaw ← reqField m "packages" >>= asMap
  let _scorecardsRaw ← reqField m "scorecards" >>= asMap
  if modelsRaw.isEmpty then
    Except.error "At least one model must be specified."
  else
    let scorecardsRaw := _scorecardsRaw
    do
      let active ← reqField m "active" >>= getBool
      let noF ← reqField m "no_forecast" >>= getBool
      let models ← parseKeyedEntries Except.ok parseModelConfig modelsRaw
      let packages ← parseKeyedEntries parsePackageKey parsePackageConfig packagesRaw
      if packages.isEmpty then
        Except.error "packages must have at least 1 entry"
      else do
        let td ← reqField m "task_defaults" >>= parseTaskDefaults
        let scorecards ← parseKeyedEntries Except.ok parseScorecardConfig scorecardsRaw
        let rm ← reqField m "run_mode" >>= getStr >>= parseRunMode
        scorecardRefsCheck noF models scorecards
        validateModelsAfter noF models
        Except.ok
          { active := active, no_forecast := noF, models := models,
            packages := packages, task_defaults := td,
            scorecards := scorecards, run_mode := rm }

/-- Embedding of `PlatformConfig` (config.py lines 89-90). -/
structure PlatformConfig where
  ncores_per_node : Int
  deriving DecidableEq

/-- Serialization of `PlatformConfig`. -/
def PlatformConfig.dump (p : PlatformConfig) : Yaml :=
  Yaml.map [("ncores_per_node", Yaml.num p.ncores_per_node)]

/-- Validation of `PlatformConfig` (`ge=1`). -/
def parsePlatformConfig (y : Yaml) : Except String PlatformConfig := do
  let m ← asMap y
  let n ← reqField m "ncores_per_node" >>= getInt
  if n < 1 then Except.error "ncores_per_node must be >= 1"
  else Except.ok { ncores_per_node := n }

/-- Embedding of `Config` (config.py lines 271-352) as a data value; paths
are their string form and the datetimes stay in their `yyyy-mm-dd-HH:MM:SS`
string form. -/
structure Config where
  start_datetime : String
  end_datetime : String
  cartopy_data_dir : String
  output_dir : String
  run_dir : String
  aqm : AQMConfig
  platform_defaults : List (PlatformKeyT × PlatformConfig)

/-- Inner serialization of `Config` by `model_dump(mode="json")`. -/
def Config.dump (c : Config) : List (String × Yaml) :=
  [("start_datetime", Yaml.s c.start_datetime),
    ("end_datetime", Yaml.s c.end_datetime),
    ("cartopy_data_dir", Yaml.s c.cartopy_data_dir),
    ("output_dir", Yaml.s c.output_dir),
    ("run_dir", Yaml.s c.run_dir),
    ("aqm", c.aqm.dump),
    ("platform_defaults",
      Yaml.map (dumpEntries PlatformKeyT.value PlatformConfig.dump c.platform_defaults))]

/-- Embedding of `Config.to_yaml` (config.py lines 298-301): the dumped
mapping is wrapped under the single root key `melodies_monet_parm`. -/
def Config.toYaml (c : Config) : Yaml :=
  Yaml.map [("melodies_monet_parm", Yaml.map c.dump)]

/-- Top-level field names of `Config`, for the `extra="forbid"` check. -/
def configAllowedKeys : List String :=
  ["start_datetime", "end_datetime", "cartopy_data_dir", "output_dir",
    "run_dir", "aqm", "platform_defaults"]

/-- Shape check standing in for the `datetime.strptime(...,
"%Y-%m-%d-%H:%M:%S")` call of `Config.date_range`: four year digits and
two-digit components separated as in the fixed format. (strptime's
day-of-month range rules are not modelled; the round-trip carries the
string verbatim, so both sides apply the same check.) -/
def dateFormatOk (s : String) : Bool :=
  match s.toList with
  | [y1, y2, y3, y4, a1, mo1, mo2, a2, d1, d2, a3, h1, h2, a4, mi1, mi2, a5, s1, s2] =>
    y1.isDigit && y2.isDigit && y3.isDigit && y4.isDigit &&
    mo1.isDigit && mo2.isDigit && d1.isDigit && d2.isDigit &&
    h1.isDigit && h2.isDigit && mi1.isDigit && mi2.isDigit &&
    s1.isDigit && s2.isDigit &&
    (a1 == '-') && (a2 == '-') && (a3 == '-') && (a4 == ':') && (a5 == ':')
  | _ => false

/-- Validation of the inner `Config` mapping: the `extra="forbid"` model
configuration, the required fields, and the after-validator that parses the
two datetimes. -/
def parseConfig (y : Yaml) : Except String Config := do
  let m ← asMap y
  if m.any (fun p => !(configAllowedKeys.contains p.1)) then
    Except.error "Extra inputs are not permitted"
  else do
    let sd ← reqField m "start_datetime" >>= getStr
    let ed ← reqField m "end_datetime" >>= getStr
    let cd ← reqField m "cartopy_data_dir" >>= getStr
    let od ← reqField m "output_dir" >>= getStr
    let rd ← reqField m "run_dir" >>= getStr
    let aqm ← reqField m "aqm" >>= parseAQMConfig
    let pdY ← reqField m "platform_defaults" >>= asMap
    let pd ← parseKeyedEntries parsePlatformKey (fun _ v => parsePlatformConfig v) pdY
    if dateFormatOk sd && dateFormatOk ed then
      Except.ok
        { start_datetime := sd, end_datetime := ed, cartopy_data_dir := cd,
          output_dir := od, run_dir := rd, aqm := aqm, platform_defaults := pd }
    else
      Except.error "invalid datetime format"

/-- Embedding of `Config.from_yaml` (config.py lines 303-305): the document
must carry the root key `melodies_monet_parm`, whose value is validated.
Modelled from the spec: the common base class `AeBaseModel`
(aqm_eval/base.py) is not among the sources; it is taken to be a plain
pydantic `BaseModel` whose validation and `model_dump(mode="json")` behave
field-by-field as the spec's round-trip contract describes. -/
def Config.fromYaml (y : Yaml) : Except String Config := do
  let m ← asMap y
  match dGet m "melodies_monet_parm" with
  | some inner => parseConfig inner
  | none => Except.error "KeyError: melodies_monet_parm"

/-! ### Validity of a configuration value (the invariants the validators
    enforce, expressed on the data value) -/

/-- The `ge=1` bounds of `BatchArgs`. -/
def BatchArgsOk (b : BatchArgs) : Prop := 1 ≤ b.nodes ∧ 1 ≤ b.tasks_per_node

/-- Validity of an `Execution`. -/
def ExecutionOk (e : Execution) : Prop := BatchArgsOk e.batchargs

/-- Validity of a `PackageExecution`. -/
def PackageExecutionOk (pe : PackageExecution) : Prop :=
  ExecutionOk pe.prep ∧ ∀ p ∈ pe.tasks, ExecutionOk p.2

/-- Validity of a model entry: the excluded key matches the map key and the
`kwargs` pass-through is a mapping. -/
def ModelEntryOk (k : String) (mc : AQMModelConfig) : Prop :=
  mc.key = k ∧ mc.kwargs.isMapB = true

/-- Validity of a package entry, including its after-validator. -/
def PackageEntryOk (pk : PackageKeyT) (p : PackageConfig) : Prop :=
  p.key = pk ∧ ¬(p.active = true ∧ p.observation_template = none) ∧
  p.observation_variables.isMapB = true ∧
  (∀ q ∈ p.task_overlay, q.2.isMapB = true) ∧
  (∀ q ∈ p.task_mm_config, q.2.isMapB = true) ∧
  PackageExecutionOk p.execution

/-- Validity of `TaskDefaults`. -/
def TaskDefaultsOk (td : TaskDefaults) : Prop :=
  ExecutionOk td.execution ∧ td.save_paired.isMapB = true ∧
  td.timeseries.isMapB = true

/-- Validity of an `AQMConfig` value: nonempty models and packages, keys
matching, dict-typed fields mapping-shaped, and the two after-validator
checks passing. -/
def AQMConfigOk (a : AQMConfig) : Prop :=
  a.models ≠ [] ∧ a.packages ≠ [] ∧
  (∀ p ∈ a.models, ModelEntryOk p.1 p.2) ∧
  (∀ p ∈ a.packages, PackageEntryOk p.1 p.2) ∧
  (∀ p ∈ a.scorecards, p.2.key = p.1) ∧
  TaskDefaultsOk a.task_defaults ∧
  scorecardRefsCheck a.no_forecast a.models a.scorecards = Except.ok () ∧
  validateModelsAfter a.no_forecast a.models = Except.ok ()

/-- Validity of a whole `Config` value. -/
def ConfigOk (c : Config) : Prop :=
  dateFormatOk c.start_datetime = true ∧ dateFormatOk c.end_datetime = true ∧
  AQMConfigOk c.aqm ∧ ∀ p ∈ c.platform_defaults, 1 ≤ p.2.ncores_per_node

/-! ## Iteration inputs of symlink creation and derived-field generation -/

/-- Concrete execution settings used when instantiating theorems on small
configurations. -/
def exampleExecution : Execution :=
  { batchargs := { nodes := 1, tasks_per_node := 4, walltime := "01:00:00" } }

/-- Concrete chem package configuration used when instantiating theorems on
small configurations. -/
def examplePackage : PackageConfig :=
  { key := PackageKeyT.chem,
    observation_template := some "obs_*.nc",
    observation_variables := Yaml.map [("OZONE", Yaml.map [("unit_scale", Yaml.num 1)])],
    mapping := [("o3", "OZONE")],
    active := true,
    tasks_to_exclude := [],
    execution :=
      { prep := exampleExecution, tasks := [(TaskKey.save_paired, exampleExecution)] },
    task_overlay := [(TaskKey.timeseries, Yaml.map [])],
    task_mm_config := [(TaskKey.save_paired, Yaml.map [("analysis", Yaml.map [])])] }

/-- Concrete model entry builder, used when instantiating validation
theorems on small configurations. -/
def mkModelEntry (k title color : String) (isHost : Bool) :
    String × AQMModelConfig :=
  (k,
    { key := k, expt_dir := "/expt/" ++ k, title := title,
      plot_kwargs :=
        { color := color, marker := "^", linestyle := "-", markersize := 4 },
      is_host := isHost, type := "rrfs",
      kwargs := Yaml.map [("surf_only", Yaml.b true), ("mech", Yaml.s "cb6r3_ae6_aq")],
      radius_of_influence := 20000, variablesF := Yaml.null,
      projection := Yaml.null })

/-- Concrete whole configuration used when instantiating the serialization
round-trip theorem. -/
def exampleConfig : Config :=
  { start_datetime := "2023-06-01-12:00:00",
    end_datetime := "2023-06-02-12:00:00",
    cartopy_data_dir := "/data/cartopy",
    output_dir := "/out",
    run_dir := "/run",
    aqm :=
      { active := true,
        no_forecast := false,
        models := [mkModelEntry "eval1" "Eval" "g" true,
          mkModelEntry "base1" "Base" "r" false],
        packages := [(PackageKeyT.chem, examplePackage)],
        task_defaults :=
          { execution := exampleExecution, save_paired := Yaml.map [],
            timeseries := Yaml.map [] },
        scorecards :=
          [("sc1", { key := "sc1", control := "eval1", sensitivity := "base1" })],
        run_mode := RunMode.resume },
    platform_defaults := [(PlatformKeyT.ursa, { ncores_per_node := 192 })] }

/-- Embedding of `ForecastFileSpec.out_path` naming
(package/core.py lines 55-58 and 180-191): one output path per (model label,
cycle date), from the per-model label and the `yyyymmddhh` directory name. -/
def forecastOutPaths (labels : List String) (cycleDirs : List String)
    (dataDir : FsPath) : List FsPath :=
  labels.flatMap (fun lab => cycleDirs.map (fun d => dataDir ++ [lab ++ "_" ++ d ++ ".nc"]))

/-! # Theorems -/

/-! ## Reduction helpers for the `Except` monad -/

@[simp] theorem exceptBind_ok {ε α β : Type} (a : α) (f : α → Except ε β) :
    (Except.ok a >>= f) = f a := rfl

@[simp] theorem exceptBind_error {ε α β : Type} (e : ε) (f : α → Except ε β) :
    ((Except.error e : Except ε α) >>= f) = (Except.error e : Except ε β) := rfl

@[simp] theorem exceptPure_eq_ok {ε α : Type} (a : α) :
    (pure a : Except ε α) = Except.ok a := rfl

@[simp] theorem exceptMap_ok {ε α β : Type} (f : α → β) (a : α) :
    (Except.ok a : Except ε α).map f = Except.ok (f a) := rfl

@[simp] theorem exceptMap_error {ε α β : Type} (f : α → β) (e : ε) :
    (Except.error e : Except ε α).map f = (Except.error e : Except ε β) := rfl

/-! ## Claim C1 — effective task list -/

/-- Claim C1, as stated, is false on the code: with the chem/aqs default task
list, one configured scorecard, two scorecard-eligible models and
`tasks_to_exclude = [timeseries]`, `AbstractEvalPackage.tasks` keeps the
timeseries task (it never consults `tasks_to_exclude`), while the claimed
effective list removes it. -/
theorem c1_counterexample :
    packageTasks taskKeyAll
        [("sc1", { key := "sc1", control := "base", sensitivity := "eval" })] ≠
      specEffectiveTasks taskKeyAll [TaskKey.timeseries] 2 := by
  decide

/-- Claim C1 (amended): for every configuration and every package, the
effective task list equals the package's default ordered task list minus
the scorecard task exactly when no scorecard is configured; neither
`tasks_to_exclude` nor the number of scorecard-eligible models enters into
it. -/
theorem c1_amended (tasksDefault : List TaskKey)
    (scorecards : List (String × ScorecardConfig)) :
    packageTasks tasksDefault scorecards =
      tasksDefault.filter
        (fun t => !(t == TaskKey.scorecard && scorecards.isEmpty)) := by
  unfold packageTasks enableScorecards
  cases scorecards with
  | nil => simp [bne]
  | cons p rest => simp

/-! ## Claim C10 — date-range iteration -/

theorem iterByStep_mem_aux (e step : Int) (hstep : 0 < step) :
    ∀ (n : ℕ) (s : Int), (e + step - s).toNat ≤ n →
      ∀ x : Int, x ∈ iterByStep s e step ↔ ∃ k : ℕ, x = s + k * step ∧ x ≤ e := by
  intro n
  induction n with
  | zero =>
    intro s hs x
    have hse : ¬ s ≤ e := by omega
    rw [iterByStep, dif_neg (by tauto)]
    simp only [List.not_mem_nil, false_iff, not_exists]
    rintro k ⟨hk1, hk2⟩
    have hks : 0 ≤ (k : ℤ) * step := mul_nonneg (by positivity) hstep.le
    omega
  | succ n ih =>
    intro s hs x
    by_cases hse : s ≤ e
    · rw [iterByStep, dif_pos ⟨hstep, hse⟩, List.mem_cons,
        ih (s + step) (by omega) x]
      constructor
      · rintro (rfl | ⟨k, hk1, hk2⟩)
        · exact ⟨0, by simp, hse⟩
        · refine ⟨k + 1, ?_, hk2⟩
          push_cast
          linarith [hk1]
      · rintro ⟨k, hk1, hk2⟩
        cases k with
        | zero => left; simpa using hk1
        | succ k2 =>
          right
          refine ⟨k2, ?_, hk2⟩
          push_cast at hk1 ⊢
          linarith [hk1]
    · rw [iterByStep, dif_neg (by tauto)]
      simp only [List.not_mem_nil, false_iff, not_exists]
      rintro k ⟨hk1, hk2⟩
      have hks : 0 ≤ (k : ℤ) * step := mul_nonneg (by positivity) hstep.le
      omega

theorem iterByStep_head_cases (s e step : Int) :
    iterByStep s e step = [] ∨ ∃ t, iterByStep s e step = s :: t := by
  rw [iterByStep]
  split
  · exact Or.inr ⟨_, rfl⟩
  · exact Or.inl rfl

theorem iterByStep_chain_aux (e step : Int) (hstep : 0 < step) :
    ∀ (n : ℕ) (s : Int), (e + step - s).toNat ≤ n →
      List.Chain' (fun a b : Int => a < b) (iterByStep s e step) := by
  intro n
  induction n with
  | zero =>
    intro s hs
    have hse : ¬ s ≤ e := by omega
    rw [iterByStep, dif_neg (by tauto)]
    exact List.chain'_nil
  | succ n ih =>
    intro s hs
    by_cases hse : s ≤ e
    · rw [iterByStep, dif_pos ⟨hstep, hse⟩, List.chain'_cons']
      refine ⟨?_, ih (s + step) (by omega)⟩
      intro y hy
      rcases iterByStep_head_cases (s + step) e step with hnil | ⟨t, ht⟩
      · rw [hnil] at hy
        simp at hy
      · rw [ht] at hy
        simp only [List.head?_cons, Option.mem_def, Option.some.injEq] at hy
        omega
    · rw [iterByStep, dif_neg (by tauto)]
      exact List.chain'_nil

theorem iterByStep_empty_iff (s e step : Int) (hstep : 0 < step) :
    iterByStep s e step = [] ↔ e < s := by
  rw [iterByStep]
  split
  · rename_i h
    have hse := h.2
    constructor
    · intro hc
      exact absurd hc (List.cons_ne_nil _ _)
    · intro hc
      exact absurd hse (by omega)
  · rename_i h
    simp only [true_iff]
    omega

/-- Claim C10: with a positive step (the default is one day),
`DateRange.iter_by_step` yields exactly the datetimes `start + k * step`
with `k ≥ 0` and `start + k * step ≤ end`, in strictly increasing order, and
is empty exactly when `start > end` — so the start is always included and
the end is included when reachable by whole steps. -/
theorem c10_iter_by_step (s e step : Int) (hstep : 0 < step) :
    (∀ x : Int, x ∈ iterByStep s e step ↔ ∃ k : ℕ, x = s + k * step ∧ x ≤ e) ∧
    List.Chain' (fun a b : Int => a < b) (iterByStep s e step) ∧
    (iterByStep s e step = [] ↔ e < s) := by
  refine ⟨iterByStep_mem_aux e step hstep _ s le_rfl,
    iterByStep_chain_aux e step hstep _ s le_rfl,
    iterByStep_empty_iff s e step hstep⟩

/-- Claim C10, witnessed at `start = 0`, `end = 3`, `step = 1` (a concrete
four-day range). -/
theorem c10_witness :
    (∀ x : Int, x ∈ iterByStep 0 3 1 ↔ ∃ k : ℕ, x = 0 + k * 1 ∧ x ≤ 3) ∧
    List.Chain' (fun a b : Int => a < b) (iterByStep 0 3 1) ∧
    (iterByStep 0 3 1 = [] ↔ (3 : Int) < 0) :=
  c10_iter_by_step 0 3 1 (by norm_num)

/-! ## Claim C2 — strict/resume directory initialization -/

theorem getOrCreatePath_isOk (fs : List FsPath) (p : FsPath) (eo : Bool) :
    ∃ fs2, getOrCreatePath fs p eo = Except.ok fs2 := by
  by_cases h : p ∈ fs
  · exact ⟨fs, by simp [getOrCreatePath, h]⟩
  · exact ⟨p.inits.filter (fun q => !q.isEmpty) ++ fs,
      by simp [getOrCreatePath, mkdirParents, h]⟩

/-- Claim C2 is contradicted by the code: `initialize`'s directory phase
never fails, whatever the run mode and whatever already exists on disk —
`get_or_create_path` only calls `mkdir` when the path does not exist, so the
`exist_ok=False` passed under strict mode is never exercised. In particular,
under strict mode with the package data directory `run/chem/data` (and even
the package output directory) pre-existing, initialization succeeds and
reuses them instead of raising. -/
theorem c2_strict_never_detects_existing_dirs :
    (∀ (mode : RunMode) (outputDir runDir : FsPath) (key : String)
        (fs : List FsPath),
      ∃ fsEnd, initializeDirs mode outputDir runDir key fs = Except.ok fsEnd) ∧
    (∃ fsEnd,
      initializeDirs RunMode.strict ["out"] ["run"] "chem"
          [["run", "chem", "data"], ["out", "chem"], ["run"], ["out"]] =
        Except.ok fsEnd) := by
  constructor
  · intro mode outputDir runDir key fs
    obtain ⟨fs1, h1⟩ := getOrCreatePath_isOk fs outputDir true
    obtain ⟨fs2, h2⟩ := getOrCreatePath_isOk fs1 runDir true
    cases mode with
    | strict =>
      obtain ⟨fs3, h3⟩ := getOrCreatePath_isOk fs2 (runDir ++ [key, "data"]) false
      obtain ⟨fs4, h4⟩ := getOrCreatePath_isOk fs3 (outputDir ++ [key]) false
      exact ⟨fs4, by simp [initializeDirs, h1, h2, h3, h4]⟩
    | resume =>
      obtain ⟨fs3, h3⟩ := getOrCreatePath_isOk fs2 (runDir ++ [key, "data"]) true
      obtain ⟨fs4, h4⟩ := getOrCreatePath_isOk fs3 (outputDir ++ [key]) true
      exact ⟨fs4, by simp [initializeDirs, h1, h2, h3, h4]⟩
  · exact ⟨_, rfl⟩

/-! ## Claim C3 — resume skip / strict raise for derived-field outputs -/

/-- Claim C3: for a derived-field output path `p` that already exists when
`_run_dask_operations_` starts, (a) under resume mode the loop completes
(when it returns at all it returns ok) without ever writing `p` — the
existing file's contents and modification time are untouched because no
operation targets it — and (b) under strict mode, if some forecast-file
spec's output path is `p`, the loop raises an error. -/
theorem c3_resume_skips_strict_raises (outPaths : List FsPath)
    (fs : List FsPath) (p : FsPath) (hp : p ∈ fs) :
    (∀ fsEnd writes,
        runDaskOperations RunMode.resume outPaths fs = Except.ok (fsEnd, writes) →
        p ∉ writes) ∧
    (p ∈ outPaths →
      ∃ e, runDaskOperations RunMode.strict outPaths fs = Except.error e) := by
  induction outPaths generalizing fs with
  | nil =>
    refine ⟨?_, ?_⟩
    · intro fsEnd writes h
      simp only [runDaskOperations, Except.ok.injEq, Prod.mk.injEq] at h
      rw [← h.2]
      simp
    · intro hmem
      simp at hmem
  | cons out rest ih =>
    refine ⟨?_, ?_⟩
    · intro fsEnd writes h
      by_cases hout : out ∈ fs
      · rw [show runDaskOperations RunMode.resume (out :: rest) fs =
            runDaskOperations RunMode.resume rest fs by
          simp [runDaskOperations, hout]] at h
        exact (ih fs hp).1 fsEnd writes h
      · rcases hrec : runDaskOperations RunMode.resume rest (out :: fs) with e | ⟨fsE, w⟩
        · simp [runDaskOperations, hout, loggerCall, hrec] at h
        · simp only [runDaskOperations, hout, loggerCall, hrec] at h
          simp only [and_false, if_false, Except.ok.injEq, Prod.mk.injEq,
            if_neg, reduceIte] at h
          rw [← h.2]
          intro hmem
          rcases List.mem_cons.mp hmem with rfl | hmem2
          · exact hout hp
          · exact (ih (out :: fs) (List.mem_cons_of_mem _ hp)).1 fsE w hrec hmem2
    · intro hmem
      by_cases hout : out ∈ fs
      · exact ⟨"FileExistsError", by
          simp [runDaskOperations, hout, loggerCall]⟩
      · have hpo : p ≠ out := fun hpe => hout (hpe ▸ hp)
        have hrest : p ∈ rest := by
          rcases List.mem_cons.mp hmem with rfl | h2
          · exact absurd rfl hpo
          · exact h2
        obtain ⟨e, he⟩ :=
          (ih (out :: fs) (List.mem_cons_of_mem _ hp)).2 hrest
        exact ⟨e, by
          simp [runDaskOperations, hout, loggerCall, he]⟩

/-- Claim C3, witnessed on a one-spec run whose output file pre-exists:
under resume nothing is written to it, under strict the run errors. -/
theorem c3_witness :
    (∀ fsEnd writes,
        runDaskOperations RunMode.resume [["data", "m1_2023060112.nc"]]
            [["data", "m1_2023060112.nc"]] = Except.ok (fsEnd, writes) →
        ["data", "m1_2023060112.nc"] ∉ writes) ∧
    (["data", "m1_2023060112.nc"] ∈ [["data", "m1_2023060112.nc"]] →
      ∃ e, runDaskOperations RunMode.strict [["data", "m1_2023060112.nc"]]
          [["data", "m1_2023060112.nc"]] = Except.error e) :=
  c3_resume_skips_strict_raises [["data", "m1_2023060112.nc"]]
    [["data", "m1_2023060112.nc"]] ["data", "m1_2023060112.nc"] (by simp)

/-! ## Claim C4 — scorecard fan-out count -/

theorem fanoutScorecard_ok (labels : List String) (cfg : ScorecardConfig)
    (hs : cfg.sensitivity ∈ labels) (hc : cfg.control ∈ labels) :
    fanoutScorecard labels cfg =
      Except.ok (scorecardMethodAll.map (fun m => ControlFile.scorecardFile m cfg.key)) := by
  have h1 : (labels.find? (fun jj => jj == cfg.sensitivity)).isSome :=
    List.find?_isSome.mpr ⟨cfg.sensitivity, hs, by simp⟩
  have h2 : (labels.find? (fun jj => jj == cfg.control)).isSome :=
    List.find?_isSome.mpr ⟨cfg.control, hc, by simp⟩
  obtain ⟨y1, hy1⟩ := Option.isSome_iff_exists.mp h1
  obtain ⟨y2, hy2⟩ := Option.isSome_iff_exists.mp h2
  unfold fanoutScorecard scorecardModels
  rw [if_neg]
  simp [List.filterMap_cons, hy1, hy2]

theorem fanoutAllScorecards_ok (labels : List String)
    (scorecards : List (String × ScorecardConfig))
    (h : ∀ q ∈ scorecards, q.2.sensitivity ∈ labels ∧ q.2.control ∈ labels) :
    ∃ files, fanoutAllScorecards labels scorecards = Except.ok files ∧
      files.length = 4 * scorecards.length ∧
      ∀ f ∈ files, f.isScorecard = true := by
  induction scorecards with
  | nil => exact ⟨[], by simp [fanoutAllScorecards]⟩
  | cons q rest ih =>
    obtain ⟨qk, qc⟩ := q
    obtain ⟨files, hf, hl, hsc⟩ := ih (fun r hr => h r (List.mem_cons_of_mem _ hr))
    have hq := h (qk, qc) (List.mem_cons_self _ _)
    refine ⟨scorecardMethodAll.map (fun m => ControlFile.scorecardFile m qc.key) ++ files,
      ?_, ?_, ?_⟩
    · simp [fanoutAllScorecards, fanoutScorecard_ok labels qc hq.1 hq.2, hf]
    · simp [hl, scorecardMethodAll]
      omega
    · intro f hfm
      rcases List.mem_append.mp hfm with hin | hin
      · obtain ⟨m, -, rfl⟩ := List.mem_map.mp hin
        rfl
      · exact hsc f hin

theorem createControlConfigs_no_scorecard (labels : List String)
    (scorecards : List (String × ScorecardConfig)) (tasks : List TaskKey)
    (hns : TaskKey.scorecard ∉ tasks) :
    ∃ files, createControlConfigs labels scorecards tasks = Except.ok files ∧
      (files.filter ControlFile.isScorecard).length = 0 := by
  induction tasks with
  | nil => exact ⟨[], by simp [createControlConfigs]⟩
  | cons t rest ih =>
    obtain ⟨files, hf, hl⟩ := ih (fun hmem => hns (List.mem_cons_of_mem _ hmem))
    have ht : t ≠ TaskKey.scorecard := by
      intro hte
      exact hns (hte ▸ List.mem_cons_self _ _)
    refine ⟨ControlFile.plain t :: files, ?_, ?_⟩
    · simp [createControlConfigs, ht, hf]
    · simp [List.filter_cons, ControlFile.isScorecard, hl]

/-- Claim C4: for a package whose effective task list is duplicate-free (all
default task lists are) and whose scorecards reference models present among
the package's model labels, initialization generates exactly
`4 * len(scorecards)` scorecard control-specification files when the
scorecard task is in the effective task list — one per scorecard per
statistical method (rmse, ioa, nmb, nme) — and exactly `0` otherwise. -/
theorem c4_scorecard_fanout_count (tasks : List TaskKey) (labels : List String)
    (scorecards : List (String × ScorecardConfig))
    (hnd : tasks.Nodup)
    (h : ∀ q ∈ scorecards, q.2.sensitivity ∈ labels ∧ q.2.control ∈ labels) :
    ∃ files, createControlConfigs labels scorecards tasks = Except.ok files ∧
      (files.filter ControlFile.isScorecard).length =
        (if TaskKey.scorecard ∈ tasks then 4 * scorecards.length else 0) := by
  induction tasks with
  | nil => exact ⟨[], by simp [createControlConfigs]⟩
  | cons t rest ih =>
    have hnd2 := List.nodup_cons.mp hnd
    by_cases ht : t = TaskKey.scorecard
    · subst ht
      obtain ⟨scFiles, hsf, hsl, hssc⟩ := fanoutAllScorecards_ok labels scorecards h
      obtain ⟨files2, hf2, hl2⟩ :=
        createControlConfigs_no_scorecard labels scorecards rest hnd2.1
      refine ⟨scFiles ++ files2, ?_, ?_⟩
      · simp [createControlConfigs, hsf, hf2]
      · rw [if_pos (List.mem_cons_self _ _), List.filter_append, List.length_append]
        have : scFiles.filter ControlFile.isScorecard = scFiles :=
          List.filter_eq_self.mpr hssc
        rw [this, hsl, hl2]
        omega
    · obtain ⟨files2, hf2, hl2⟩ := ih hnd2.2
      refine ⟨ControlFile.plain t :: files2, ?_, ?_⟩
      · simp [createControlConfigs, ht, hf2]
      · have hmemiff : (TaskKey.scorecard ∈ t :: rest) ↔ (TaskKey.scorecard ∈ rest) := by
          rw [List.mem_cons]
          constructor
          · rintro (hsc | hin)
            · exact absurd hsc.symm ht
            · exact hin
          · exact Or.inr
        rw [List.filter_cons]
        simp only [ControlFile.isScorecard, Bool.false_eq_true, reduceIte, hl2]
        simp [hmemiff]

/-- Claim C4, witnessed on the chem default task list with one scorecard
between two labelled models: four scorecard control files result; and with
the scorecard task filtered out (no scorecards configured): zero. -/
theorem c4_witness :
    (∃ files,
      createControlConfigs ["m1", "m2"]
          [("sc1", { key := "sc1", control := "m1", sensitivity := "m2" })]
          taskKeyAll = Except.ok files ∧
      (files.filter ControlFile.isScorecard).length =
        (if TaskKey.scorecard ∈ taskKeyAll then
          4 * [("sc1", { key := "sc1", control := "m1", sensitivity := "m2" :
            ScorecardConfig })].length
        else 0)) ∧
    (∃ files,
      createControlConfigs ["m1", "m2"] []
          (taskKeyAll.filter (fun ii => ii != TaskKey.scorecard)) = Except.ok files ∧
      (files.filter ControlFile.isScorecard).length =
        (if TaskKey.scorecard ∈ taskKeyAll.filter (fun ii => ii != TaskKey.scorecard) then
          4 * ([] : List (String × ScorecardConfig)).length
        else 0)) := by
  constructor
  · exact c4_scorecard_fanout_count taskKeyAll ["m1", "m2"]
      [("sc1", { key := "sc1", control := "m1", sensitivity := "m2" })]
      (by decide) (by decide)
  · exact c4_scorecard_fanout_count
      (taskKeyAll.filter (fun ii => ii != TaskKey.scorecard)) ["m1", "m2"] []
      (by decide) (by decide)

/-! ## Claim C6 — model title/color uniqueness validation -/

theorem dedup_length_eq_iff {α : Type} [DecidableEq α] (l : List α) :
    l.dedup.length = l.length ↔ l.Nodup := by
  constructor
  · intro h
    have hsub : l.dedup.Sublist l := List.dedup_sublist l
    have := hsub.eq_of_length h
    rw [← this]
    exact List.nodup_dedup l
  · intro h
    rw [List.dedup_eq_self.mpr h]

theorem length_filter_add_length_filter_not {α : Type} (l : List α) (p : α → Bool) :
    (l.filter p).length + (l.filter (fun a => !(p a))).length = l.length := by
  induction l with
  | nil => rfl
  | cons a t ih =>
    by_cases h : p a <;> simp [List.filter_cons, h, ← ih] <;> omega

/-- Claim C6: for a configuration whose models satisfy every other invariant
(two or more models with duplicate-free keys as dict entries are, no
key-prefix clash, entity keys matching map keys, exactly one host model),
the whole-configuration model validation fails if and only if two models
share a title, or two models — excluding the host exactly when
`no_forecast` is set — share a plot color. -/
theorem c6_model_uniqueness_validation (noForecast : Bool)
    (models : List (String × AQMModelConfig))
    (hlen : 2 ≤ models.length)
    (hnd : (dKeys models).Nodup)
    (hstem : stemClash (dKeys models) = false)
    (hkeys : models.all (fun p => p.2.key == p.1) = true)
    (hhost : (models.filter (fun p => p.2.is_host)).length = 1) :
    (¬ validateModelsAfter noForecast models = Except.ok ()) ↔
      (¬ (models.map (fun p => p.2.title)).Nodup ∨
        ¬ (if noForecast then
            (models.filter (fun p => !p.2.is_host)).map (fun p => p.2.plot_kwargs.color)
          else
            models.map (fun p => p.2.plot_kwargs.color)).Nodup) := by
  have h2 : models.any (fun p => p.2.key != p.1) = false := by
    rw [List.any_eq_false]
    intro x hx
    have hx2 := List.all_eq_true.mp hkeys x hx
    simp [bne, hx2]
  have hsub : ((models.filter (fun p => p.2.is_host)).map Prod.fst).Sublist
      (models.map Prod.fst) :=
    (List.filter_sublist models).map Prod.fst
  have h3nd : ((models.filter (fun p => p.2.is_host)).map Prod.fst).Nodup :=
    hnd.sublist hsub
  have h3 : ((models.filter (fun p => p.2.is_host)).map Prod.fst).dedup.length = 1 := by
    rw [List.dedup_eq_self.mpr h3nd, List.length_map, hhost]
  have hcolorslen :
      (if noForecast then
          (models.filter (fun p => !p.2.is_host)).map (fun p => p.2.plot_kwargs.color)
        else
          models.map (fun p => p.2.plot_kwargs.color)).length =
        (if noForecast then models.length - 1 else models.length) := by
    cases noForecast with
    | false => simp
    | true =>
      have := length_filter_add_length_filter_not models (fun p => p.2.is_host)
      simp only [if_true, List.length_map]
      omega
  by_cases ht : (models.map (fun p => p.2.title)).Nodup
  · have ht' : (models.map (fun p => p.2.title)).dedup.length = models.length := by
      rw [List.dedup_eq_self.mpr ht, List.length_map]
    by_cases hc : (if noForecast then
        (models.filter (fun p => !p.2.is_host)).map (fun p => p.2.plot_kwargs.color)
      else
        models.map (fun p => p.2.plot_kwargs.color)).Nodup
    · have hc' : (if noForecast then
          (models.filter (fun p => !p.2.is_host)).map (fun p => p.2.plot_kwargs.color)
        else
          models.map (fun p => p.2.plot_kwargs.color)).dedup.length =
            (if noForecast then models.length - 1 else models.length) := by
        rw [List.dedup_eq_self.mpr hc, hcolorslen]
      have hok : validateModelsAfter noForecast models = Except.ok () := by
        simp [validateModelsAfter, hstem, h2, h3, ht', hc']
      simp [hok, ht, hc]
    · have hc' : (if noForecast then
          (models.filter (fun p => !p.2.is_host)).map (fun p => p.2.plot_kwargs.color)
        else
          models.map (fun p => p.2.plot_kwargs.color)).dedup.length ≠
            (if noForecast then models.length - 1 else models.length) := by
        intro heq
        exact hc ((dedup_length_eq_iff _).mp (by rw [heq, hcolorslen]))
      have herr : validateModelsAfter noForecast models =
          Except.error "models[].plot_kwargs.color must be unique for each model." := by
        simp [validateModelsAfter, hstem, h2, h3, ht', hc']
      simp [herr, hc]
  · have ht' : (models.map (fun p => p.2.title)).dedup.length ≠ models.length := by
      intro heq
      exact ht ((dedup_length_eq_iff _).mp (by rw [heq, List.length_map]))
    have herr : validateModelsAfter noForecast models =
        Except.error "Model titles must be unique." := by
      simp [validateModelsAfter, hstem, h2, h3, ht']
    simp [herr, ht]

/-- Claim C6, witnessed on a two-model configuration (host `eval1`, second
model `base1`) with distinct titles and colors under `no_forecast = false`:
validation succeeds, and the iff instantiates accordingly. -/
theorem c6_witness :
    (¬ validateModelsAfter false
        [mkModelEntry "eval1" "Eval" "g" true,
          mkModelEntry "base1" "Base" "r" false] = Except.ok ()) ↔
      (¬ ([mkModelEntry "eval1" "Eval" "g" true,
          mkModelEntry "base1" "Base" "r" false].map (fun p => p.2.title)).Nodup ∨
        ¬ (if false then
            ([mkModelEntry "eval1" "Eval" "g" true,
              mkModelEntry "base1" "Base" "r" false].filter
                (fun p => !p.2.is_host)).map (fun p => p.2.plot_kwargs.color)
          else
            [mkModelEntry "eval1" "Eval" "g" true,
              mkModelEntry "base1" "Base" "r" false].map
              (fun p => p.2.plot_kwargs.color)).Nodup) :=
  c6_model_uniqueness_validation false
    [mkModelEntry "eval1" "Eval" "g" true, mkModelEntry "base1" "Base" "r" false]
    (by decide) (by decide) (by decide) (by decide) (by decide)

/-! ## Claim C5 — idempotence of the deep defaults merge -/

theorem dGet_dSet_self {α : Type} (m : List (String × α)) (k : String) (v : α) :
    dGet (dSet m k v) k = some v := by
  induction m with
  | nil => simp [dSet, dGet]
  | cons p rest ih =>
    obtain ⟨pk, pv⟩ := p
    by_cases h : pk = k
    · simp [dSet, dGet, h]
    · simp [dSet, dGet, h, ih]

theorem dGet_dSet_ne {α : Type} (m : List (String × α)) (k k2 : String) (v : α)
    (h : k ≠ k2) : dGet (dSet m k v) k2 = dGet m k2 := by
  induction m with
  | nil => simp [dSet, dGet, h]
  | cons p rest ih =>
    obtain ⟨pk, pv⟩ := p
    by_cases hk : pk = k
    · subst hk
      simp [dSet, dGet, h]
    · simp [dSet, dGet, hk, ih]

theorem dSet_eq_of_dGet {α : Type} (m : List (String × α)) (k : String) (v : α)
    (h : dGet m k = some v) : dSet m k v = m := by
  induction m with
  | nil => simp [dGet] at h
  | cons p rest ih =>
    obtain ⟨pk, pv⟩ := p
    by_cases hk : pk = k
    · subst hk
      simp [dGet] at h
      simp [dSet, h]
    · simp only [dGet, if_neg hk] at h
      simp [dSet, hk, ih h]

theorem dSet_append_of_dGet_none {α : Type} (m : List (String × α)) (k : String)
    (v : α) (h : dGet m k = none) : dSet m k v = m ++ [(k, v)] := by
  induction m with
  | nil => simp [dSet]
  | cons p rest ih =>
    obtain ⟨pk, pv⟩ := p
    by_cases hk : pk = k
    · subst hk
      simp [dGet] at h
    · simp only [dGet, if_neg hk] at h
      simp [dSet, hk, ih h]

theorem dGet_append_of_dGet_none {α : Type} (m1 m2 : List (String × α))
    (k : String) (h : dGet m1 k = none) : dGet (m1 ++ m2) k = dGet m2 k := by
  induction m1 with
  | nil => simp
  | cons p rest ih =>
    obtain ⟨pk, pv⟩ := p
    by_cases hk : pk = k
    · subst hk
      simp [dGet] at h
    · simp only [dGet, if_neg hk] at h
      simp [dGet, hk, ih h]

theorem MapWF.nodupKeys {m : List (String × Yaml)} (h : MapWF m) :
    (dKeys m).Nodup := by
  cases h with
  | mk _ h1 _ => exact h1

theorem MapWF.nested {m : List (String × Yaml)} (h : MapWF m) :
    ∀ kv ∈ m, ∀ vm, kv.2 = Yaml.map vm → MapWF vm := by
  cases h with
  | mk _ _ h2 => exact h2

theorem MapWF.tail {p : String × Yaml} {rest : List (String × Yaml)}
    (h : MapWF (p :: rest)) : MapWF rest := by
  refine MapWF.mk _ ?_ ?_
  · exact (List.nodup_cons.mp h.nodupKeys).2
  · intro kv hkv vm hvm
    exact h.nested kv (List.mem_cons_of_mem _ hkv) vm hvm

theorem updateLeft_dGet_of_not_mem :
    ∀ (r l c : List (String × Yaml)) (k : String), k ∉ dKeys r →
      updateLeft l r = some c → dGet c k = dGet l k := by
  intro r
  induction r with
  | nil =>
    intro l c k _ h
    simp only [updateLeft, Option.some.injEq] at h
    rw [h]
  | cons p rest ih =>
    obtain ⟨key, value⟩ := p
    intro l c k hk h
    have hkmem : k ≠ key ∧ k ∉ dKeys rest := by
      rw [show dKeys ((key, value) :: rest) = key :: dKeys rest from rfl,
        List.mem_cons] at hk
      tauto
    simp only [updateLeft] at h
    rcases hg : dGet l key with - | gv
    · simp only [hg] at h
      rw [ih _ c k hkmem.2 h, dGet_dSet_ne _ key k _ (fun he => hkmem.1 he.symm)]
    · cases gv with
      | map lm =>
        simp only [hg] at h
        cases value with
        | map rm =>
          rcases hlm : updateLeft lm rm with - | merged
          · simp [hlm] at h
          · simp only [hlm] at h
            rw [ih _ c k hkmem.2 h,
              dGet_dSet_ne _ key k _ (fun he => hkmem.1 he.symm)]
        | s v => simp at h
        | num v => simp at h
        | b v => simp at h
        | null => simp at h
        | arr vs => simp at h
      | s v =>
        simp only [hg] at h
        rw [ih _ c k hkmem.2 h, dGet_dSet_ne _ key k _ (fun he => hkmem.1 he.symm)]
      | num v =>
        simp only [hg] at h
        rw [ih _ c k hkmem.2 h, dGet_dSet_ne _ key k _ (fun he => hkmem.1 he.symm)]
      | b v =>
        simp only [hg] at h
        rw [ih _ c k hkmem.2 h, dGet_dSet_ne _ key k _ (fun he => hkmem.1 he.symm)]
      | null =>
        simp only [hg] at h
        rw [ih _ c k hkmem.2 h, dGet_dSet_ne _ key k _ (fun he => hkmem.1 he.symm)]
      | arr vs =>
        simp only [hg] at h
        rw [ih _ c k hkmem.2 h, dGet_dSet_ne _ key k _ (fun he => hkmem.1 he.symm)]

theorem updateLeft_disjoint_append :
    ∀ (r pre : List (String × Yaml)), (dKeys r).Nodup →
      (∀ k ∈ dKeys r, dGet pre k = none) →
      updateLeft pre r = some (pre ++ r) := by
  intro r
  induction r with
  | nil =>
    intro pre _ _
    simp [updateLeft]
  | cons p rest ih =>
    obtain ⟨key, value⟩ := p
    intro pre hnd hdis
    have hdk : dKeys ((key, value) :: rest) = key :: dKeys rest := rfl
    rw [hdk] at hnd hdis
    have h0 : dGet pre key = none := hdis key (List.mem_cons_self _ _)
    have hnd2 := List.nodup_cons.mp hnd
    simp only [updateLeft, h0]
    rw [dSet_append_of_dGet_none pre key value h0]
    have hrec := ih (pre ++ [(key, value)]) hnd2.2 (fun k hk => by
      have hne : key ≠ k := fun he => hnd2.1 (he ▸ hk)
      rw [dGet_append_of_dGet_none _ _ _ (hdis k (List.mem_cons_of_mem _ hk))]
      simp [dGet, hne])
    rw [hrec]
    simp

theorem updateLeft_idem_aux :
    ∀ (n : ℕ) (b a c : List (String × Yaml)), sizeOf b ≤ n → MapWF b →
      updateLeft a b = some c → updateLeft c b = some c := by
  intro n
  induction n with
  | zero =>
    intro b a c hb _ _
    exact absurd hb (by cases b <;> simp)
  | succ n ih =>
    intro b a c hb hwf h
    cases b with
    | nil =>
      simp only [updateLeft, Option.some.injEq] at h ⊢
    | cons p rest =>
      obtain ⟨key, value⟩ := p
      have hknr : key ∉ dKeys rest := by
        have := hwf.nodupKeys
        rw [show dKeys ((key, value) :: rest) = key :: dKeys rest from rfl] at this
        exact (List.nodup_cons.mp this).1
      have hwfrest : MapWF rest := hwf.tail
      have hszs : sizeOf rest ≤ n ∧ sizeOf value ≤ n := by
        simp only [List.cons.sizeOf_spec, Prod.mk.sizeOf_spec] at hb
        omega
      have hwfv : ∀ vm, value = Yaml.map vm → MapWF vm := fun vm hv =>
        hwf.nested (key, value) (List.mem_cons_self _ _) vm hv
      -- the second pass reassigns or re-merges what the first pass stored
      have step_assign :
          updateLeft (dSet a key value) rest = some c →
          updateLeft c ((key, value) :: rest) = some c := by
        intro hA
        have hget : dGet c key = some value := by
          rw [updateLeft_dGet_of_not_mem rest _ c key hknr hA, dGet_dSet_self]
        cases value with
        | map rm =>
          have hwfrm : MapWF rm := hwfv rm rfl
          have hself : updateLeft rm rm = some rm := by
            have h0 : updateLeft [] rm = some rm := by
              simpa using updateLeft_disjoint_append rm [] hwfrm.nodupKeys
                (fun k _ => rfl)
            refine ih rm [] rm ?_ hwfrm h0
            have := hszs.2
            simp only [Yaml.map.sizeOf_spec] at this
            omega
          simp only [updateLeft, hget, hself]
          rw [dSet_eq_of_dGet c key _ hget]
          exact ih rest (dSet a key _) c hszs.1 hwfrest hA
        | s v =>
          simp only [updateLeft, hget]
          rw [dSet_eq_of_dGet c key _ hget]
          exact ih rest (dSet a key _) c hszs.1 hwfrest hA
        | num v =>
          simp only [updateLeft, hget]
          rw [dSet_eq_of_dGet c key _ hget]
          exact ih rest (dSet a key _) c hszs.1 hwfrest hA
        | b v =>
          simp only [updateLeft, hget]
          rw [dSet_eq_of_dGet c key _ hget]
          exact ih rest (dSet a key _) c hszs.1 hwfrest hA
        | null =>
          simp only [updateLeft, hget]
          rw [dSet_eq_of_dGet c key _ hget]
          exact ih rest (dSet a key _) c hszs.1 hwfrest hA
        | arr vs =>
          simp only [updateLeft, hget]
          rw [dSet_eq_of_dGet c key _ hget]
          exact ih rest (dSet a key _) c hszs.1 hwfrest hA
      simp only [updateLeft] at h
      rcases hg : dGet a key with - | gv
      · simp only [hg] at h
        exact step_assign h
      · cases gv with
        | map lm =>
          simp only [hg] at h
          cases value with
          | map rm =>
            rcases hlm : updateLeft lm rm with - | merged
            · simp [hlm] at h
            · simp only [hlm] at h
              have hget : dGet c key = some (Yaml.map merged) := by
                rw [updateLeft_dGet_of_not_mem rest _ c key hknr h, dGet_dSet_self]
              have hwfrm : MapWF rm := hwfv rm rfl
              have hsrm : sizeOf rm ≤ n := by
                have := hszs.2
                simp only [Yaml.map.sizeOf_spec] at this
                omega
              have hmerged : updateLeft merged rm = some merged :=
                ih rm lm merged hsrm hwfrm hlm
              simp only [updateLeft, hget, hmerged]
              rw [dSet_eq_of_dGet c key _ hget]
              exact ih rest (dSet a key _) c hszs.1 hwfrest h
          | s v => simp at h
          | num v => simp at h
          | b v => simp at h
          | null => simp at h
          | arr vs => simp at h
        | s v =>
          simp only [hg] at h
          exact step_assign h
        | num v =>
          simp only [hg] at h
          exact step_assign h
        | b v =>
          simp only [hg] at h
          exact step_assign h
        | null =>
          simp only [hg] at h
          exact step_assign h
        | arr vs =>
          simp only [hg] at h
          exact step_assign h

/-- Claim C5: the deep key-wise defaults merge is idempotent — whenever
`update_left` is defined on `(a, b)` (no mapping-over-non-mapping clash)
with result `c`, merging `b` into `c` again returns `c` unchanged; and in
particular merging a configuration with itself returns it unchanged. `b`
ranges over well-formed Python mappings (duplicate-free keys at every
level). -/
theorem c5_update_left_idempotent (a b c : List (String × Yaml))
    (hwf : MapWF b) (h : updateLeft a b = some c) :
    updateLeft c b = some c ∧ updateLeft b b = some b := by
  refine ⟨updateLeft_idem_aux (sizeOf b) b a c le_rfl hwf h, ?_⟩
  have h0 : updateLeft [] b = some b := by
    simpa using updateLeft_disjoint_append b [] hwf.nodupKeys (fun k _ => rfl)
  exact updateLeft_idem_aux (sizeOf b) b [] b le_rfl hwf h0

/-- Claim C5, witnessed on a two-level merge: defaults
`{"x": 1, "m": {"y": 2}}` overridden by `{"m": {"y": 3}, "z": true}`. -/
theorem c5_witness :
    updateLeft
        [("x", Yaml.num 1), ("m", Yaml.map [("y", Yaml.num 3)]), ("z", Yaml.b true)]
        [("m", Yaml.map [("y", Yaml.num 3)]), ("z", Yaml.b true)] =
      some [("x", Yaml.num 1), ("m", Yaml.map [("y", Yaml.num 3)]),
        ("z", Yaml.b true)] ∧
    updateLeft [("m", Yaml.map [("y", Yaml.num 3)]), ("z", Yaml.b true)]
        [("m", Yaml.map [("y", Yaml.num 3)]), ("z", Yaml.b true)] =
      some [("m", Yaml.map [("y", Yaml.num 3)]), ("z", Yaml.b true)] := by
  have hwfb : MapWF [("m", Yaml.map [("y", Yaml.num 3)]), ("z", Yaml.b true)] := by
    refine MapWF.mk _ (by decide) ?_
    intro kv hkv vm hvm
    simp only [List.mem_cons, List.not_mem_nil, or_false] at hkv
    rcases hkv with rfl | rfl
    · simp only [Yaml.map.injEq] at hvm
      subst hvm
      refine MapWF.mk _ (by decide) ?_
      intro kv2 hkv2 vm2 hvm2
      simp only [List.mem_cons, List.not_mem_nil, or_false] at hkv2
      subst hkv2
      simp at hvm2
    · simp at hvm
  have hab : updateLeft [("x", Yaml.num 1), ("m", Yaml.map [("y", Yaml.num 2)])]
      [("m", Yaml.map [("y", Yaml.num 3)]), ("z", Yaml.b true)] =
      some [("x", Yaml.num 1), ("m", Yaml.map [("y", Yaml.num 3)]),
        ("z", Yaml.b true)] := by
    simp [updateLeft, dGet, dSet]
  exact c5_update_left_idempotent
    [("x", Yaml.num 1), ("m", Yaml.map [("y", Yaml.num 2)])]
    [("m", Yaml.map [("y", Yaml.num 3)]), ("z", Yaml.b true)]
    [("x", Yaml.num 1), ("m", Yaml.map [("y", Yaml.num 3)]), ("z", Yaml.b true)]
    hwfb hab

/-! ## Claim C8 — 10-m wind direction range -/

open Real

/-- Claim C8, as stated, is false on the code: at the concrete wind components
`u = cos(-3.1415/2)`, `v = sin(-3.1415/2)` (a nearly-due-north wind), the
four-quadrant arctangent is exactly `-3.1415/2`, the degree conversion by
`180/3.1415` cancels to `-90`, and the raw direction `270 + 90 = 360` is NOT
wrapped (the wrap fires only strictly above 360) — so `wd10m = 360`, which
lies outside the claimed half-open interval `[0, 360)`. -/
theorem c8_counterexample :
    wd10m (Real.cos (-(3.1415 / 2))) (Real.sin (-(3.1415 / 2))) = 360 ∧
    (360 : ℝ) ∉ Set.Ico (0 : ℝ) 360 := by
  have hpg : (3.1415 : ℝ) < π := Real.pi_gt_d4
  have hθmem : -(3.1415 / 2) ∈ Set.Ioc (-π) π := by
    constructor
    · linarith
    · linarith [Real.pi_pos]
  have harg : atan2 (Real.sin (-(3.1415 / 2))) (Real.cos (-(3.1415 / 2))) =
      -(3.1415 / 2) := by
    unfold atan2
    rw [Complex.ofReal_cos, Complex.ofReal_sin]
    exact Complex.arg_cos_add_sin_mul_I hθmem
  have hraw : wd10mRaw (Real.cos (-(3.1415 / 2))) (Real.sin (-(3.1415 / 2))) = 360 := by
    unfold wd10mRaw
    rw [harg]
    norm_num
  constructor
  · unfold wd10m
    rw [hraw]
    simp
  · simp

/-- Claim C8 (amended): for every pair of 10-m wind components, the derived
wind direction lies in the left-open right-closed interval `(0, 360]` — the
exact boundary value 360 is attainable (see the counterexample) while 0 is
not, because the conversion constant is `180/3.1415` rather than exact
degrees and the wrap applies only strictly above 360. -/
theorem c8_amended (u v : ℝ) : wd10m u v ∈ Set.Ioc (0 : ℝ) 360 := by
  have h1 : -π < atan2 v u := Complex.neg_pi_lt_arg _
  have h2 : atan2 v u ≤ π := Complex.arg_le_pi _
  have hpl : π < 3.1416 := Real.pi_lt_d4
  have hA : -3.1416 < atan2 v u := by linarith
  have hB : atan2 v u < 3.1416 := by linarith
  have hC : atan2 v u * 180 / 3.1415 < 3.1416 * 180 / 3.1415 :=
    (div_lt_div_iff_of_pos_right (show (0 : ℝ) < 3.1415 by norm_num)).mpr
      (mul_lt_mul_of_pos_right hB (show (0 : ℝ) < 180 by norm_num))
  have hD : -3.1416 * 180 / 3.1415 < atan2 v u * 180 / 3.1415 :=
    (div_lt_div_iff_of_pos_right (show (0 : ℝ) < 3.1415 by norm_num)).mpr
      (mul_lt_mul_of_pos_right hA (show (0 : ℝ) < 180 by norm_num))
  have hCn : (3.1416 : ℝ) * 180 / 3.1415 < 181 := by norm_num
  have hDn : (-181 : ℝ) < -3.1416 * 180 / 3.1415 := by norm_num
  rw [Set.mem_Ioc]
  unfold wd10m wd10mRaw
  split_ifs with hcond
  · constructor
    · linarith
    · linarith
  · rw [not_lt] at hcond
    constructor
    · linarith
    · linarith

/-! ## Claim C7 — relative-humidity sanity check -/

/-- Claim C7: the meteorological derived-field computation raises a hard
`ValueError` — never clamping or merely warning — exactly when the computed
2-m relative-humidity field violates `min > 0 and quantile(0.9) < 100`: the
error and check are in exact correspondence, a successful run returns the
rh field unclamped, and in particular a 90th-percentile relative humidity
of at least 100 fails the computation for that file. -/
theorem c7_rh_sanity_check (spfh2m tmp2m pressfc ugrd10m vgrd10m : List ℝ) :
    ((∃ e, ishComputeDerivedFields spfh2m tmp2m pressfc ugrd10m vgrd10m =
        Except.error e) ↔
      ¬ (0 < fieldMin (rhField spfh2m tmp2m) ∧
          quantile90 (rhField spfh2m tmp2m) < 100)) ∧
    (∀ d, ishComputeDerivedFields spfh2m tmp2m pressfc ugrd10m vgrd10m =
        Except.ok d → d.rh2m = rhField spfh2m tmp2m) ∧
    (100 ≤ quantile90 (rhField spfh2m tmp2m) →
      ishComputeDerivedFields spfh2m tmp2m pressfc ugrd10m vgrd10m =
        Except.error "rh quantile check failed") := by
  by_cases hcond : 0 < fieldMin (rhField spfh2m tmp2m) ∧
      quantile90 (rhField spfh2m tmp2m) < 100
  · refine ⟨?_, ?_, ?_⟩
    · simp [ishComputeDerivedFields, hcond]
    · intro d hd
      simp only [ishComputeDerivedFields, if_pos hcond, Except.ok.injEq] at hd
      rw [← hd]
    · intro hq
      exact absurd hcond.2 (not_lt.mpr hq)
  · refine ⟨?_, ?_, ?_⟩
    · simp [ishComputeDerivedFields, hcond]
    · intro d hd
      simp [ishComputeDerivedFields, hcond] at hd
    · intro _
      simp [ishComputeDerivedFields, hcond]

/-- Claim C7, witnessed on a one-point field: specific humidity 1 kg/kg at
273.15 K gives a relative humidity around 26315 percent, whose
90th percentile is at least 100, so the computation fails with the
`ValueError`. -/
theorem c7_witness :
    100 ≤ quantile90 (rhField [1] [273.15]) ∧
    ishComputeDerivedFields [1] [273.15] [] [] [] =
      Except.error "rh quantile check failed" := by
  have hq : 100 ≤ quantile90 (rhField [1] [273.15]) := by
    have hfield : rhField [1] [273.15] = [rhPoint 1 273.15] := rfl
    rw [hfield]
    have hqv : quantile90 [rhPoint 1 273.15] = rhPoint 1 273.15 := by
      simp [quantile90, sortReals, insertSorted]
    rw [hqv]
    unfold rhPoint eSat
    norm_num [Real.exp_zero]
  exact ⟨hq, (c7_rh_sanity_check [1] [273.15] [] [] []).2.2 hq⟩

/-! ## Claim C9 — configuration serialization round-trip -/

theorem asMap_map (m : List (String × Yaml)) : asMap (Yaml.map m) = Except.ok m := rfl

theorem getStr_s (s : String) : getStr (Yaml.s s) = Except.ok s := rfl

theorem getBool_b (b : Bool) : getBool (Yaml.b b) = Except.ok b := rfl

theorem isMapB_exists {y : Yaml} (h : y.isMapB = true) : ∃ mm, y = Yaml.map mm := by
  cases y <;> first
  | exact ⟨_, rfl⟩
  | simp [Yaml.isMapB] at h

theorem parsePackageKey_value (k : PackageKeyT) :
    parsePackageKey k.value = Except.ok k := by
  cases k <;> rfl

theorem parsePlatformKey_value (k : PlatformKeyT) :
    parsePlatformKey k.value = Except.ok k := by
  cases k <;> rfl

theorem parseTaskKey_value (k : TaskKey) :
    parseTaskKey k.value = Except.ok k := by
  cases k <;> rfl

theorem parseRunMode_value (m : RunMode) :
    parseRunMode m.value = Except.ok m := by
  cases m <;> rfl

theorem parseKeyedEntries_dump {κ β : Type} (pk : String → Except String κ)
    (kv : κ → String) (f : κ → Yaml → Except String β) (g : β → Yaml)
    (l : List (κ × β))
    (hk : ∀ p ∈ l, pk (kv p.1) = Except.ok p.1)
    (hf : ∀ p ∈ l, f p.1 (g p.2) = Except.ok p.2) :
    parseKeyedEntries pk f (dumpEntries kv g l) = Except.ok l := by
  induction l with
  | nil => simp [dumpEntries, parseKeyedEntries]
  | cons p rest ih =>
    obtain ⟨k0, b0⟩ := p
    have hrec := ih (fun q hq => hk q (List.mem_cons_of_mem _ hq))
      (fun q hq => hf q (List.mem_cons_of_mem _ hq))
    simp only [dumpEntries, List.map_cons, parseKeyedEntries,
      hk (k0, b0) (List.mem_cons_self _ _), hf (k0, b0) (List.mem_cons_self _ _),
      exceptBind_ok]
    rw [show (dumpEntries kv g rest) = rest.map (fun p => (kv p.1, g p.2)) from rfl] at hrec
    rw [hrec]
    rfl

theorem parseBatchArgs_dump (b : BatchArgs) (h : BatchArgsOk b) :
    parseBatchArgs b.dump = Except.ok b := by
  obtain ⟨h1, h2⟩ := h
  have hcond : ¬ (b.nodes < 1 ∨ b.tasks_per_node < 1) := by omega
  simp only [parseBatchArgs, BatchArgs.dump, asMap, dGet, exceptBind_ok]
  simp [getInt, getStr, hcond]

theorem parseExecution_dump (e : Execution) (h : ExecutionOk e) :
    parseExecution e.dump = Except.ok e := by
  simp only [parseExecution, Execution.dump, asMap, dGet, exceptBind_ok]
  simp [parseBatchArgs_dump e.batchargs h]

theorem parsePackageExecution_dump (pe : PackageExecution)
    (h : PackageExecutionOk pe) : parsePackageExecution pe.dump = Except.ok pe := by
  have htasks : parseKeyedEntries parseTaskKey (fun _ v => parseExecution v)
      (dumpEntries TaskKey.value Execution.dump pe.tasks) = Except.ok pe.tasks :=
    parseKeyedEntries_dump _ _ _ _ _ (fun q _ => parseTaskKey_value q.1)
      (fun q hq => parseExecution_dump q.2 (h.2 q hq))
  simp only [parsePackageExecution, PackageExecution.dump, asMap, dGet,
    reqField, exceptBind_ok]
  simp [parseExecution_dump pe.prep h.1, htasks, asMap]

theorem parseTaskKeyList_dump (l : List TaskKey) :
    parseTaskKeyList (l.map (fun t => Yaml.s t.value)) = Except.ok l := by
  induction l with
  | nil => rfl
  | cons t rest ih =>
    simp [parseTaskKeyList, getStr, parseTaskKey_value, ih]

theorem parsePlotKwargs_dump (p : PlotKwargs) :
    parsePlotKwargs p.dump = Except.ok p := by
  simp only [parsePlotKwargs, PlotKwargs.dump, asMap, dGet, exceptBind_ok]
  simp [getStr, getInt]

theorem parseModelConfig_dump (k : String) (mc : AQMModelConfig)
    (h : ModelEntryOk k mc) : parseModelConfig k mc.dump = Except.ok mc := by
  obtain ⟨hkey, hmap⟩ := h
  obtain ⟨mm, hmm⟩ := isMapB_exists hmap
  simp only [parseModelConfig, AQMModelConfig.dump, asMap, dGet, reqField,
    exceptBind_ok, hmm]
  simp [getStr, getBool, getNum, parsePlotKwargs_dump]
  rw [← hkey, ← hmm]

theorem parseScorecardConfig_dump (k : String) (sc : ScorecardConfig)
    (h : sc.key = k) : parseScorecardConfig k sc.dump = Except.ok sc := by
  simp only [parseScorecardConfig, ScorecardConfig.dump, asMap, dGet, reqField,
    exceptBind_ok]
  simp [getStr]
  rw [← h]

theorem parseTaskDefaults_dump (td : TaskDefaults) (h : TaskDefaultsOk td) :
    parseTaskDefaults td.dump = Except.ok td := by
  obtain ⟨he, hsp, hts⟩ := h
  obtain ⟨m1, hm1⟩ := isMapB_exists hsp
  obtain ⟨m2, hm2⟩ := isMapB_exists hts
  simp only [parseTaskDefaults, TaskDefaults.dump, asMap, dGet, reqField,
    exceptBind_ok, hm1, hm2]
  simp [parseExecution_dump td.execution he, asMap]
  rw [← hm1, ← hm2]

theorem parsePackageConfig_dump (pk : PackageKeyT) (p : PackageConfig)
    (h : PackageEntryOk pk p) : parsePackageConfig pk p.dump = Except.ok p := by
  obtain ⟨hkey, hobs, hov, hto, htm, hex⟩ := h
  obtain ⟨vm, hvm⟩ := isMapB_exists hov
  have hmapping : parseKeyedEntries Except.ok (fun _ v => getStr v)
      (dumpEntries (fun s => s) (fun s => Yaml.s s) p.mapping) =
        Except.ok p.mapping :=
    parseKeyedEntries_dump _ _ _ _ _ (fun q _ => rfl) (fun q _ => rfl)
  have hoverlay : parseKeyedEntries parseTaskKey
      (fun _ v => (asMap v).map Yaml.map)
      (dumpEntries TaskKey.value id p.task_overlay) = Except.ok p.task_overlay :=
    parseKeyedEntries_dump _ _ _ _ _ (fun q _ => parseTaskKey_value q.1)
      (fun q hq => by
        obtain ⟨qm, hqm⟩ := isMapB_exists (hto q hq)
        simp [hqm, asMap])
  have htmc : parseKeyedEntries parseTaskKey
      (fun _ v => (asMap v).map Yaml.map)
      (dumpEntries TaskKey.value id p.task_mm_config) = Except.ok p.task_mm_config :=
    parseKeyedEntries_dump _ _ _ _ _ (fun q _ => parseTaskKey_value q.1)
      (fun q hq => by
        obtain ⟨qm, hqm⟩ := isMapB_exists (htm q hq)
        simp [hqm, asMap])
  cases hot : p.observation_template with
  | none =>
    have hnact : ¬ (p.active = true) := fun hact => hobs ⟨hact, hot⟩
    have hact : p.active = false := by
      cases hb : p.active
      · rfl
      · exact absurd hb hnact
    simp [parsePackageConfig, PackageConfig.dump, asMap_map, dGet, reqField,
      hvm, hot, hnact, getBool_b, hmapping, hoverlay, htmc,
      parsePackageExecution_dump p.execution hex, parseTaskKeyList_dump]
    rw [← hkey, ← hvm, ← hot, ← hact]
  | some s =>
    simp [parsePackageConfig, PackageConfig.dump, asMap_map, dGet, reqField,
      hvm, hot, getStr_s, getBool_b, hmapping, hoverlay, htmc,
      parsePackageExecution_dump p.execution hex, parseTaskKeyList_dump]
    rw [← hkey, ← hvm, ← hot]

theorem scorecardModels_keys (a : AQMConfig) :
    dKeys a.models = a.models.map Prod.fst := rfl

theorem parseAQMConfig_dump (a : AQMConfig) (h : AQMConfigOk a) :
    parseAQMConfig a.dump = Except.ok a := by
  obtain ⟨hm, hp, hmodels, hpackages, hscore, htd, hrefs, hval⟩ := h
  have hmodelsP : parseKeyedEntries Except.ok parseModelConfig
      (dumpEntries (fun s => s) AQMModelConfig.dump a.models) = Except.ok a.models :=
    parseKeyedEntries_dump _ _ _ _ _ (fun q _ => rfl)
      (fun q hq => parseModelConfig_dump q.1 q.2 (hmodels q hq))
  have hpackagesP : parseKeyedEntries parsePackageKey parsePackageConfig
      (dumpEntries PackageKeyT.value PackageConfig.dump a.packages) =
        Except.ok a.packages :=
    parseKeyedEntries_dump _ _ _ _ _ (fun q _ => parsePackageKey_value q.1)
      (fun q hq => parsePackageConfig_dump q.1 q.2 (hpackages q hq))
  have hscoreP : parseKeyedEntries Except.ok parseScorecardConfig
      (dumpEntries (fun s => s) ScorecardConfig.dump a.scorecards) =
        Except.ok a.scorecards :=
    parseKeyedEntries_dump _ _ _ _ _ (fun q _ => rfl)
      (fun q hq => parseScorecardConfig_dump q.1 q.2 (hscore q hq))
  have hmne : (dumpEntries (fun s => s) AQMModelConfig.dump a.models).isEmpty = false := by
    cases hcm : a.models with
    | nil => exact absurd hcm hm
    | cons x xs => rfl
  have hpne : a.packages.isEmpty = false := by
    cases hcp : a.packages with
    | nil => exact absurd hcp hp
    | cons x xs => rfl
  simp [parseAQMConfig, AQMConfig.dump, asMap_map, dGet, reqField,
    getBool_b, getStr_s, hmne, hmodelsP, hpackagesP, hscoreP, hpne,
    parseTaskDefaults_dump a.task_defaults htd, parseRunMode_value, hrefs, hval]

theorem dateFormatOk_example1 : dateFormatOk "2023-06-01-12:00:00" = true := by
  decide

/-- Claim C9: serialization round-trips exactly — for every valid
configuration value (one whose data satisfies the invariants the pydantic
validators enforce), re-validating the serialized YAML document yields the
identical configuration: `Config.from_yaml(cfg.to_yaml()) == cfg`. The
excluded `key` fields dropped by the dump are restored from the mapping
keys during validation. -/
theorem c9_config_roundtrip (c : Config) (h : ConfigOk c) :
    Config.fromYaml (Config.toYaml c) = Except.ok c := by
  obtain ⟨hd1, hd2, haqm, hpd⟩ := h
  have hpdP : parseKeyedEntries parsePlatformKey (fun _ v => parsePlatformConfig v)
      (dumpEntries PlatformKeyT.value PlatformConfig.dump c.platform_defaults) =
        Except.ok c.platform_defaults :=
    parseKeyedEntries_dump _ _ _ _ _ (fun q _ => parsePlatformKey_value q.1)
      (fun q hq => by
        have hc : ¬ q.2.ncores_per_node < 1 := by
          have := hpd q hq
          omega
        simp only [parsePlatformConfig, PlatformConfig.dump, asMap, dGet,
          reqField, exceptBind_ok]
        simp [getInt, hc])
  simp [Config.fromYaml, Config.toYaml, Config.dump, parseConfig,
    configAllowedKeys, asMap_map, dGet, reqField, getStr_s,
    parseAQMConfig_dump c.aqm haqm, hpdP, hd1, hd2]

/-- Claim C9, witnessed on a concrete two-model one-package configuration
with a scorecard: the serialized document validates back to the identical
value. -/
theorem c9_witness :
    Config.fromYaml (Config.toYaml exampleConfig) = Except.ok exampleConfig := by
  refine c9_config_roundtrip exampleConfig ⟨by decide, by decide, ?_, ?_⟩
  · refine ⟨List.cons_ne_nil _ _, List.cons_ne_nil _ _, ?_, ?_, ?_,
      ⟨⟨by decide, by decide⟩, rfl, rfl⟩, rfl, rfl⟩
    · intro p hp
      simp [exampleConfig, mkModelEntry] at hp
      rcases hp with h | h <;> subst h <;> exact ⟨rfl, rfl⟩
    · intro p hp
      simp [exampleConfig] at hp
      subst hp
      exact ⟨rfl, fun hc => Option.noConfusion hc.2, rfl,
        fun q hq => by simp [examplePackage] at hq; subst hq; rfl,
        fun q hq => by simp [examplePackage] at hq; subst hq; rfl,
        ⟨⟨by decide, by decide⟩,
          fun q hq => by
            simp [examplePackage] at hq
            subst hq
            exact ⟨by decide, by decide⟩⟩⟩
    · intro p hp
      simp [exampleConfig] at hp
      subst hp
      rfl
  · intro p hp
    simp [exampleConfig] at hp
    subst hp
    decide

end AqmEval
